import Mathlib

/-! FOODHUB negotiation chat (`server.js`)

A shallow embedding of the Socket.IO chat handlers of `server.js`, of the
price negotiation they simulate and of the two REST endpoints, followed by the
properties proved about them.

Modelling conventions.

* JavaScript strings are Lean `String`s; the text tests of the source
  (`includes`, `match`, `toLowerCase`) are defined on the character list.
  Every character the source tests for (`₹`, the decimal digits, the letters of
  `hello` and `hi`) is a single UTF-16 code unit, so scanning code points and
  scanning code units find the same occurrences.
* The offered price is a JavaScript number: `parseInt` of a digit run is the
  double nearest to its decimal value (the value itself below `2^53`,
  `Infinity` beyond the largest double) and `NaN` is `none`; inside a template
  literal it prints as `Number::toString` prints it. A finite double is given
  by its exact value, a natural number.
* The catalog prices are integer literals (at most 310) and are kept as
  naturals; the decimal literals of the supplier listings are exact rationals.
  For an integer-valued `x` and a catalog price `m` the threshold tests
  `x < m * 0.75` and `x >= m * 0.9` are the exact comparisons `4 * x < 3 * m`
  and `10 * x >= 9 * m`: `0.75` is a dyadic fraction, and the double `m * 0.9`
  is `9 * m / 10` when that is an integer and is otherwise at distance at
  least `1 / 10` from every integer. The theorems restate the thresholds over
  the rationals.
* A handler returns the list of events it emits, in emission order, each with
  the delay in milliseconds after which it is emitted.
-/

namespace FoodHub

/-! ## The catalog -/

/-- One entry of the `products` array. -/
structure Product where
  id : String
  name : String
  category : String
  supplier : String
  mrp : Nat
  unit : String
  imageUrl : String
deriving DecidableEq

/-- The `products` array of `server.js`, in source order. -/
def products : List Product :=
  [ { id := "p1", name := "Fresh Onions", category := "Vegetables", supplier := "A-Grade Veggies", mrp := 25, unit := "kg", imageUrl := "images/onion.png" },
    { id := "p2", name := "Premium Tomatoes", category := "Vegetables", supplier := "Green Farms", mrp := 40, unit := "kg", imageUrl := "https://rare-gallery.com/uploads/posts/859804-Closeup-Tomatoes-White-background.jpg" },
    { id := "p3", name := "Paneer Blocks", category := "Dairy", supplier := "Dairy Delights", mrp := 250, unit := "kg", imageUrl := "https://5.imimg.com/data5/ANDROID/Default/2020/9/JX/IE/SG/107337283/product-jpeg-500x500.png" },
    { id := "p4", name := "Chaat Masala", category := "Spices", supplier := "Spice Mart", mrp := 80, unit := "pack", imageUrl := "https://th.bing.com/th/id/OIP.LzpJ8xORtT0sOj06wS34KAHaE8?r=0&o=7rm=3&rs=1&pid=ImgDetMain&o=7&rm=3" },
    { id := "p5", name := "Potatoes (New Crop)", category := "Vegetables", supplier := "Farm Fresh Co.", mrp := 20, unit := "kg", imageUrl := "https://img.freepik.com/premium-photo/potato-hd-8k-wallpaper-stock-photographic-image_949228-19017.jpg" },
    { id := "p6", name := "Coriander Leaves", category := "Vegetables", supplier := "Local Greens", mrp := 15, unit := "bunch", imageUrl := "https://png.pngtree.com/background/20230607/original/pngtree-fresh-coriander-leaves-hanging-onto-a-black-surface-picture-image_2902530.jpg" },
    { id := "p7", name := "Carrots", category := "Vegetables", supplier := "Veggie Hub", mrp := 28, unit := "kg", imageUrl := "https://tse4.mm.bing.net/th/id/OIP.lW_Ca6FIXdDTR9iFtZauBQHaEu?r=0&w=596&h=380&rs=1&pid=ImgDetMain&o=7&rm=3" },
    { id := "p8", name := "Capsicum", category := "Vegetables", supplier := "Fresh Farm", mrp := 34, unit := "kg", imageUrl := "https://t4.ftcdn.net/jpg/02/87/25/37/360_F_287253716_I1seSRet5pt8YGBRRcTbPPV1WesM00n9.jpg" },
    { id := "p9", name := "Black Pepper", category := "Spices", supplier := "Spice Hub", mrp := 88, unit := "pack", imageUrl := "https://i.etsystatic.com/26866741/r/il/01b647/2872934319/il_1588xN.2872934319_4qgs.jpg" },
    { id := "p10", name := "Cumin Powder", category := "Spices", supplier := "Masala Mart", mrp := 92, unit := "pack", imageUrl := "https://tse3.mm.bing.net/th/id/OIP.foyGcU7KYge9ntfKWTMM4AHaE8?r=0&rs=1&pid=ImgDetMain&o=7&rm=3" },
    { id := "p11", name := "Cheese Cubes", category := "Dairy", supplier := "Dairy World", mrp := 310, unit := "kg", imageUrl := "https://tse2.mm.bing.net/th/id/OIP.tDag7JBRkoLY7-DYGn_9egHaE7?r=0&rs=1&pid=ImgDetMain&o=7&rm=3" },
    { id := "p12", name := "Milk (Full Cream)", category := "Dairy", supplier := "Dairy Fresh", mrp := 58, unit := "liter", imageUrl := "https://tse1.mm.bing.net/th/id/OIP.li8ZmdbN6Ja5MbDA63CaBAAAAA?r=0&w=474&h=346&rs=1&pid=ImgDetMain&o=7&rm=3https://tse1.mm.bing.net/th/id/OIP.li8ZmdbN6Ja5MbDA63CaBAAAAA?r=0&w=474&h=346&rs=1&pid=ImgDetMain&o=7&rm=3" },
    { id := "p13", name := "Wheat Flour", category := "Grains", supplier := "Grain Basket", mrp := 46, unit := "kg", imageUrl := "https://thumbs.dreamstime.com/b/wheat-flour-sack-ears-grains-table-golden-ripe-cereal-field-sunset-as-background-193017320.jpg" },
    { id := "p14", name := "Rice (Basmati)", category := "Grains", supplier := "Grain House", mrp := 72, unit := "kg", imageUrl := "https://5.imimg.com/data5/NR/UM/RM/SELLER-41632875/rice-500x500.png" } ]

/-! ## String primitives used by the handlers -/

/-- The currency marker `₹` (U+20B9). -/
def rupee : Char := '₹'

/-- Lower-case mapping of one code point, as far as the handlers can observe
it: the ASCII capitals, and the two code points outside ASCII whose
lower-case form contains an ASCII letter (U+0130 gives `i` followed by
U+0307, the Kelvin sign U+212A gives `k`). Every other code point is mapped by
`String.prototype.toLowerCase` to code points outside ASCII and different
from `₹`; they are left unchanged here. The source only searches lower-cased
text for `₹` or an ASCII word, or searches the ASCII names of the catalog for
a lower-cased query, and each such test is decided in the same way. -/
def lowerChar (c : Char) : List Char :=
  if c = Char.ofNat 0x130 then ['i', Char.ofNat 0x307]
  else if c = Char.ofNat 0x212A then ['k']
  else [c.toLower]

/-- Embedding of `String.prototype.toLowerCase`. -/
def toLowerCase (s : String) : String :=
  ⟨s.data.flatMap lowerChar⟩

/-- Substring test on character lists: some suffix of `s` starts with `sub`. -/
def includesList : List Char → List Char → Bool
  | [], sub => sub.isEmpty
  | c :: cs, sub => sub.isPrefixOf (c :: cs) || includesList cs sub

/-- Embedding of `String.prototype.includes`. -/
def includes (s sub : String) : Bool :=
  includesList s.data sub.data

/-- The capture group of the leftmost match of the regular expression
`/₹(\d+)/`: the longest run of decimal digits after the first `₹` that is
directly followed by a digit; `none` when nothing matches (the `?.[1]` of the
source is then `undefined`). -/
def matchRupeeDigits : List Char → Option (List Char)
  | [] => none
  | c :: cs =>
    if c = rupee ∧ cs.takeWhile Char.isDigit ≠ [] then some (cs.takeWhile Char.isDigit)
    else matchRupeeDigits cs

/-- Value of one decimal digit. -/
def digitValue (c : Char) : Nat :=
  c.toNat - 48

/-- Decimal value of a run of digits. -/
def digitsValue (ds : List Char) : Nat :=
  ds.foldl (fun acc d => 10 * acc + digitValue d) 0

/-- A JavaScript number as `parseInt` returns it on a run of digits: a
non-negative integer-valued double, given by its exact value, or `Infinity`.
`NaN` is kept apart as `none`. -/
inductive JSNumber where
  | finite (n : Nat)
  | infinity
deriving DecidableEq

/-- Numerals denote finite numbers. -/
instance (n : Nat) : OfNat JSNumber n := ⟨JSNumber.finite n⟩

/-- The number of low bits that do not fit a 53-bit significand: the least
`e` with `n / 2 ^ e < 2 ^ 53`. The first argument bounds the recursion. -/
def excessBits : Nat → Nat → Nat
  | 0, _ => 0
  | fuel + 1, n => if n < 2 ^ 53 then 0 else excessBits fuel (n / 2) + 1

/-- The Number value of a natural number: the nearest double, ties to the
even significand. Every `n < 2 ^ 53` is a double; the largest double is
`(2 ^ 53 - 1) * 2 ^ 971`, and what rounds above it is `Infinity`. -/
def toNumber (n : Nat) : JSNumber :=
  if n < 2 ^ 53 then JSNumber.finite n
  else
    let e := excessBits n n
    let q := n / 2 ^ e
    let r := n % 2 ^ e
    let q' := if 2 ^ e < 2 * r ∨ (2 * r = 2 ^ e ∧ q % 2 = 1) then q + 1 else q
    if e ≤ 970 ∨ (e = 971 ∧ q' < 2 ^ 53) then JSNumber.finite (q' * 2 ^ e)
    else JSNumber.infinity

/-- Embedding of `parseInt` on what the source passes to it: `undefined`
(`none`) gives `NaN` (`none`), a run of digits gives the Number value of its
decimal value. -/
def parseInt : Option (List Char) → Option JSNumber
  | none => none
  | some ds => some (toNumber (digitsValue ds))

/-- The `offeredPrice` of the source:
`parseInt(data.message.match(/₹(\d+)/)?.[1])`. -/
def offeredPrice (message : String) : Option JSNumber :=
  parseInt (matchRupeeDigits message.data)

/-- Search for the decimal that `Number::toString` prints for the double `n`:
with as many trailing zeros as possible (from `e + 1` down to none), the
multiple of that power of ten just below or just above `n` whose Number value
is `n`, the nearer one when both are. -/
def shortestFrom (n : Nat) : Nat → Nat
  | 0 => n
  | e + 1 =>
    let lo := n / 10 ^ (e + 1) * 10 ^ (e + 1)
    let hi := lo + 10 ^ (e + 1)
    if toNumber lo = JSNumber.finite n ∧ toNumber hi = JSNumber.finite n then
      (if n - lo ≤ hi - n then lo else hi)
    else if toNumber lo = JSNumber.finite n then lo
    else if toNumber hi = JSNumber.finite n then hi
    else shortestFrom n e

/-- The decimal with the fewest significant digits whose Number value is the
double `n`. -/
def shortestDecimal (n : Nat) : Nat :=
  shortestFrom n ((Nat.toDigits 10 n).length - 1)

/-- The significant digits of a decimal: its digits without trailing zeros. -/
def dropTrailingZeros (ds : List Char) : List Char :=
  (ds.reverse.dropWhile (fun c => c = '0')).reverse

/-- Rendering of the offered price inside a template literal
(`Number::toString`): the shortest decimal that reads back as the number,
written in full below `10 ^ 21` and in exponent form from there on. -/
def numberText : JSNumber → String
  | JSNumber.infinity => "Infinity"
  | JSNumber.finite n =>
    let digits := Nat.toDigits 10 (shortestDecimal n)
    if shortestDecimal n < 10 ^ 21 then String.mk digits
    else
      match dropTrailingZeros digits with
      | [] => String.mk digits
      | [d] => String.mk (d :: 'e' :: '+' :: Nat.toDigits 10 (digits.length - 1))
      | d :: ds =>
        String.mk (d :: '.' :: (ds ++ 'e' :: '+' :: Nat.toDigits 10 (digits.length - 1)))

/-- Rendering of a catalog price inside a template literal: the prices of the
catalog are integer literals far below `2 ^ 53`, which print in decimal. -/
def mrpText (n : Nat) : String :=
  Nat.repr n

/-- The test `if (x)` on a number that is not `NaN`: false for `0` only. -/
def JSNumber.truthy : JSNumber → Bool
  | JSNumber.finite n => n != 0
  | JSNumber.infinity => true

/-- The test `x < mrp * 0.75`. -/
def JSNumber.ltThreeQuarters (x : JSNumber) (mrp : Nat) : Bool :=
  match x with
  | JSNumber.finite n => decide (4 * n < 3 * mrp)
  | JSNumber.infinity => false

/-- The test `x >= mrp * 0.9`. -/
def JSNumber.geNineTenths (x : JSNumber) (mrp : Nat) : Bool :=
  match x with
  | JSNumber.finite n => decide (10 * n ≥ 9 * mrp)
  | JSNumber.infinity => true

/-! ## The negotiation logic -/

/-- The three variables the reply callback computes: `reply`, `isDealFinal`
and `finalPrice`. -/
structure Outcome where
  reply : String
  isDealFinal : Bool
  finalPrice : JSNumber
deriving DecidableEq

/-- Reply when the offer is below 75% of the MRP. -/
def lowReply (offered : JSNumber) (p : Product) : String :=
  "Your offer of ₹" ++ numberText offered ++ "/" ++ p.unit ++ " is a bit low. The MRP is ₹"
    ++ mrpText p.mrp ++ ". Can you increase it?"

/-- Reply when the offer is at least 90% of the MRP. -/
def acceptReply (offered : JSNumber) (p : Product) : String :=
  "That's a good offer of ₹" ++ numberText offered ++ "/" ++ p.unit
    ++ "! I accept. Let's finalize this."

/-- Reply when the offer is between 75% and 90% of the MRP. -/
def probeReply (offered : JSNumber) (p : Product) : String :=
  "Hmm, for ₹" ++ numberText offered ++ "/" ++ p.unit
    ++ ", what quantity are you looking for? I can consider a little more."

/-- Reply when `₹` is present but no valid number was read. -/
def repromptReply : String :=
  "Please specify your price offer clearly (e.g., '₹XX/kg')."

/-- Reply to a greeting. -/
def greetingReply (p : Product) : String :=
  "Hello! This is " ++ p.supplier ++ ". The MRP for " ++ p.name ++ " is ₹"
    ++ mrpText p.mrp ++ "/" ++ p.unit ++ ". What is your offer?"

/-- Reply to any other message. -/
def genericReply (p : Product) : String :=
  "I'm here to help. The MRP is ₹" ++ mrpText p.mrp ++ "/" ++ p.unit
    ++ ". What is your offer?"

/-- The branch taken when the message contains `₹` (lines 99 to 113):
`if (offeredPrice)` fails for `NaN` and for `0`. -/
def priceBranch (message : String) (productForChat : Product) : Outcome :=
  match offeredPrice message with
  | some offered =>
    if offered.truthy then
      if offered.ltThreeQuarters productForChat.mrp then
        { reply := lowReply offered productForChat, isDealFinal := false, finalPrice := 0 }
      else if offered.geNineTenths productForChat.mrp then
        { reply := acceptReply offered productForChat, isDealFinal := true, finalPrice := offered }
      else
        { reply := probeReply offered productForChat, isDealFinal := false, finalPrice := 0 }
    else
      { reply := repromptReply, isDealFinal := false, finalPrice := 0 }
  | none =>
    { reply := repromptReply, isDealFinal := false, finalPrice := 0 }

/-- The body of the reply callback up to the emission (lines 93 to 118). -/
def negotiate (message : String) (productForChat : Product) : Outcome :=
  if includes (toLowerCase message) "₹" then
    priceBranch message productForChat
  else if includes (toLowerCase message) "hello" || includes (toLowerCase message) "hi" then
    { reply := greetingReply productForChat, isDealFinal := false, finalPrice := 0 }
  else
    { reply := genericReply productForChat, isDealFinal := false, finalPrice := 0 }

/-! ## The Socket.IO handlers -/

/-- What the server keeps for one connection: the rooms the socket joined and
the two properties `join_chat` stores on it. -/
structure Socket where
  rooms : List String
  userRole : Option String
  mobile : Option String
deriving DecidableEq

/-- The fields of a `join_chat` payload that the handler reads. -/
structure JoinData where
  chatRoom : String
  role : String
  mobile : String
deriving DecidableEq

/-- The fields of a `send_message` payload. -/
structure SendData where
  chatRoom : String
  user : String
  message : String
  mobile : String
deriving DecidableEq

/-- The events the server emits, with their payloads; `isSystem` is `none`
when the payload object has no such property. -/
inductive Event where
  | chat_message (user message : String) (isSystem : Option Bool)
  | deal_finalized (finalPrice : JSNumber) (supplierContact vendorContact distance : String)
deriving DecidableEq

/-- Where an event is sent: `io.to(room).emit` or `socket.emit`. -/
inductive Target where
  | room (chatRoom : String)
  | socket
deriving DecidableEq

/-- One emission: the delay in milliseconds of the timer it runs under (0
when it is emitted by the handler itself), its target and the event. -/
structure Emission where
  delay : Nat
  target : Target
  event : Event
deriving DecidableEq

/-- The welcome text of `join_chat`. -/
def welcomeText (productForChat : Option Product) : String :=
  let productName := match productForChat with
    | some p => p.name
    | none => "this product"
  let productMRP := match productForChat with
    | some p => "MRP: ₹" ++ mrpText p.mrp ++ "/" ++ p.unit
    | none => ""
  "Welcome to the chat for " ++ productName ++ "! " ++ productMRP
    ++ ". You can now negotiate the price."

/-- The `join_chat` handler (lines 55 to 74). -/
def join_chat (socket : Socket) (data : JoinData) : Socket × List Emission :=
  let socket' : Socket :=
    { rooms := if data.chatRoom ∈ socket.rooms then socket.rooms else data.chatRoom :: socket.rooms,
      userRole := some data.role, mobile := some data.mobile }
  let productForChat := products.find? (fun p => p.id == data.chatRoom)
  (socket', [⟨0, Target.socket, Event.chat_message "System" (welcomeText productForChat) (some true)⟩])

/-- The emissions of the timer callback of `send_message` (lines 92 to 138):
the Supplier reply and, when `isDealFinal`, the `deal_finalized` event. -/
def replyEmissions (data : SendData) (productForChat : Product) : List Emission :=
  let o := negotiate data.message productForChat
  ⟨1500, Target.room data.chatRoom, Event.chat_message "Supplier" o.reply none⟩ ::
    (if o.isDealFinal then
      [⟨1500, Target.room data.chatRoom,
        Event.deal_finalized o.finalPrice "9876543210" data.mobile "5 km"⟩]
    else [])

/-- The `send_message` handler (lines 77 to 140). -/
def send_message (socket : Socket) (data : SendData) : Socket × List Emission :=
  let echo : Emission :=
    ⟨0, Target.room data.chatRoom, Event.chat_message data.user data.message none⟩
  match products.find? (fun p => p.id == data.chatRoom) with
  | none => (socket, [echo])
  | some productForChat =>
    if data.user = "Vendor" then (socket, echo :: replyEmissions data productForChat)
    else (socket, [echo])

/-! ## The REST endpoints -/

/-- The `filteredProducts` of `GET /api/products/search` (lines 42 to 48);
`q` is `none` when the request has no `q` parameter. An empty `q` is falsy,
so the query is then the empty string as well. -/
def filteredProducts (q : Option String) : List Product :=
  let query : String := match q with
    | some s => if s ≠ "" then toLowerCase s else ""
    | none => ""
  products.filter (fun p =>
    includes (toLowerCase p.name) query || includes (toLowerCase p.supplier) query)

/-- One entry of a supplier listing array; the decimal literals of the source
are exact rationals. -/
structure SupplierListing where
  supplierId : String
  supplierName : String
  price : Nat
  unit : String
  distance : ℚ
  rating : ℚ
deriving DecidableEq

/-- The own properties of the object literal `productSuppliersMap`, in source
order. -/
def productSuppliersMap : List (String × List SupplierListing) :=
  [ ("p1", [ { supplierId := "s1", supplierName := "A-Grade Veggies", price := 24, unit := "kg", distance := 3, rating := 4.5 },
             { supplierId := "s2", supplierName := "Fresh Fields", price := 25, unit := "kg", distance := 5, rating := 4.1 } ]),
    ("p2", [ { supplierId := "s3", supplierName := "Green Farms", price := 38, unit := "kg", distance := 2, rating := 4.7 },
             { supplierId := "s4", supplierName := "Veggie Point", price := 40, unit := "kg", distance := 4, rating := 4.2 } ]),
    ("p3", [ { supplierId := "s5", supplierName := "Dairy Delights", price := 245, unit := "kg", distance := 6, rating := 4.6 } ]),
    ("p4", [ { supplierId := "s6", supplierName := "Spice Mart", price := 75, unit := "pack", distance := 1, rating := 4.3 } ]),
    ("p5", [ { supplierId := "s7", supplierName := "Farm Fresh Co.", price := 19, unit := "kg", distance := 2.5, rating := 4.0 } ]),
    ("p6", [ { supplierId := "s8", supplierName := "Local Greens", price := 14, unit := "bunch", distance := 1.2, rating := 4.4 } ]),
    ("p7", [ { supplierId := "s9", supplierName := "Veggie Hub", price := 28, unit := "kg", distance := 3, rating := 4.2 } ]),
    ("p8", [ { supplierId := "s10", supplierName := "Fresh Farm", price := 34, unit := "kg", distance := 2.8, rating := 4.4 } ]),
    ("p9", [ { supplierId := "s11", supplierName := "Spice Hub", price := 88, unit := "pack", distance := 4, rating := 4.5 } ]),
    ("p10", [ { supplierId := "s12", supplierName := "Masala Mart", price := 92, unit := "pack", distance := 3.5, rating := 4.6 } ]),
    ("p11", [ { supplierId := "s13", supplierName := "Dairy World", price := 310, unit := "kg", distance := 5, rating := 4.3 } ]),
    ("p12", [ { supplierId := "s14", supplierName := "Dairy Fresh", price := 58, unit := "liter", distance := 3.7, rating := 4.2 } ]),
    ("p13", [ { supplierId := "s15", supplierName := "Grain Basket", price := 46, unit := "kg", distance := 4.5, rating := 4.1 } ]),
    ("p14", [ { supplierId := "s16", supplierName := "Grain House", price := 72, unit := "kg", distance := 6, rating := 4.4 } ]) ]

/-- The property names that an object literal inherits from
`Object.prototype` in ECMAScript (Annex B included). Each of them reads as a
function, and `__proto__` as the prototype object itself; all are truthy. -/
def objectPrototypeKeys : List String :=
  [ "constructor", "hasOwnProperty", "isPrototypeOf", "propertyIsEnumerable",
    "toLocaleString", "toString", "valueOf", "__proto__", "__defineGetter__",
    "__defineSetter__", "__lookupGetter__", "__lookupSetter__" ]

/-- What a property read `productSuppliersMap[productId]` evaluates to. -/
inductive PropertyValue where
  | listings (suppliers : List SupplierListing)
  | inherited (key : String)
  | undefined
deriving DecidableEq

/-- Embedding of the property read `productSuppliersMap[productId]`: an own
property first, then the prototype chain, else `undefined`. -/
def getProperty (productId : String) : PropertyValue :=
  match productSuppliersMap.lookup productId with
  | some suppliers => PropertyValue.listings suppliers
  | none =>
    if productId ∈ objectPrototypeKeys then PropertyValue.inherited productId
    else PropertyValue.undefined

/-- An HTTP response: status code and the value handed to `res.json`. -/
inductive Response where
  | notFound (message : String)
  | ok (value : PropertyValue)
deriving DecidableEq

/-- The handler of `GET /api/product-suppliers/:productId` (lines 204 to 211);
`!suppliers` holds for `undefined` only, arrays and inherited values being
truthy. -/
def product_suppliers (productId : String) : Response :=
  match getProperty productId with
  | PropertyValue.undefined => Response.notFound "No suppliers found for this product."
  | suppliers => Response.ok suppliers

/-! ## Specification-side notions -/

/-- Whether an emission carries a `deal_finalized` event. -/
def Emission.isDeal (e : Emission) : Bool :=
  match e.event with
  | Event.deal_finalized _ _ _ _ => true
  | Event.chat_message _ _ _ => false

/-- The negotiation outcome as a client of the room observes it from the
emissions of the timer callback: the text of the reply, whether a
`deal_finalized` event follows it, and the price that event carries. -/
def observedOutcome (es : List Emission) : Option Outcome :=
  match es.filter (fun e => e.delay != 0) with
  | [⟨_, _, Event.chat_message _ reply _⟩] =>
    some { reply := reply, isDealFinal := false, finalPrice := 0 }
  | [⟨_, _, Event.chat_message _ reply _⟩, ⟨_, _, Event.deal_finalized price _ _ _⟩] =>
    some { reply := reply, isDealFinal := true, finalPrice := price }
  | _ => none

/-- Specification of the order of the amounts: finite numbers by value, and
`Infinity` above all. -/
def JSNumber.le : JSNumber → JSNumber → Prop
  | JSNumber.finite a, JSNumber.finite b => a ≤ b
  | _, JSNumber.infinity => True
  | JSNumber.infinity, JSNumber.finite _ => False

/-- Specification of a lower bound on an amount: a finite number is at least
the rational `r` by value, and `Infinity` is at least every `r`. -/
def JSNumber.atLeast : JSNumber → ℚ → Prop
  | JSNumber.finite a, r => r ≤ (a : ℚ)
  | JSNumber.infinity, _ => True

/-- Specification of a match position: `₹` directly followed by a decimal
digit occurs somewhere in `l`. -/
def HasRupeeDigit (l : List Char) : Prop :=
  ∃ d, d.isDigit = true ∧ [rupee, d] <:+: l

/-- Specification of the first match: `l` is `pre ++ ₹ :: ds ++ rest` where no
`₹` in `pre` is directly followed by a digit, `ds` is a non-empty run of
digits and `rest` does not continue the run. -/
def FirstRupeeRun (l ds : List Char) : Prop :=
  ∃ pre rest, l = pre ++ rupee :: (ds ++ rest) ∧ ¬ HasRupeeDigit pre ∧ ds ≠ [] ∧
    (∀ c ∈ ds, c.isDigit = true) ∧ (∀ c, rest.head? = some c → c.isDigit = false)

/-- An event a client sends on its connection. -/
inductive ClientEvent where
  | join (data : JoinData)
  | send (data : SendData)
deriving DecidableEq

/-- Dispatch of one client event to its handler. -/
def handle (socket : Socket) : ClientEvent → Socket × List Emission
  | ClientEvent.join data => join_chat socket data
  | ClientEvent.send data => send_message socket data

/-- Handling a finite sequence of client events in order: the final state of
the connection and the emissions of all handlers, listed handler by handler. -/
def handleAll (socket : Socket) : List ClientEvent → Socket × List Emission
  | [] => (socket, [])
  | ev :: evs =>
    ((handleAll (handle socket ev).1 evs).1,
      (handle socket ev).2 ++ (handleAll (handle socket ev).1 evs).2)

/-! ## Lemmas on the string primitives -/

theorem includesList_iff (s sub : List Char) : includesList s sub = true ↔ sub <:+: s := by
  induction s with
  | nil => simp [includesList, List.isEmpty_iff]
  | cons c cs ih =>
    simp [includesList, ih, List.infix_cons_iff]

theorem includes_iff (s sub : String) : includes s sub = true ↔ sub.data <:+: s.data :=
  includesList_iff _ _

theorem toLower_eq_rupee (c : Char) : c.toLower = rupee ↔ c = rupee := by
  unfold Char.toLower
  by_cases h : c.toNat ≥ 65 ∧ c.toNat ≤ 90
  · have hc : c = Char.ofNat c.toNat := (Char.ofNat_toNat c).symm
    obtain ⟨h1, h2⟩ := h
    generalize c.toNat = n at *
    subst hc
    interval_cases n <;> decide
  · simp [h]

theorem rupee_mem_lowerChar (c : Char) : rupee ∈ lowerChar c ↔ c = rupee := by
  unfold lowerChar
  split_ifs with h1 h2
  · subst h1; decide
  · subst h2; decide
  · simp only [List.mem_singleton]
    rw [eq_comm, toLower_eq_rupee]

theorem rupee_mem_toLowerCase (s : String) :
    rupee ∈ (toLowerCase s).data ↔ rupee ∈ s.data := by
  simp only [toLowerCase, List.mem_flatMap, rupee_mem_lowerChar]
  constructor
  · rintro ⟨c, hc, rfl⟩; exact hc
  · intro h; exact ⟨_, h, rfl⟩

theorem singleton_infix (a : Char) (l : List Char) : [a] <:+: l ↔ a ∈ l := by
  constructor
  · rintro ⟨s, t, rfl⟩; simp
  · intro h
    obtain ⟨s, t, rfl⟩ := List.mem_iff_append.mp h
    exact ⟨s, t, by simp⟩

theorem includes_rupee (s : String) :
    includes (toLowerCase s) "₹" = true ↔ rupee ∈ s.data := by
  rw [includes_iff, ← rupee_mem_toLowerCase]
  show [rupee] <:+: _ ↔ _
  exact singleton_infix _ _

/-! ## Lemmas on the regular-expression match -/

theorem takeWhile_ne_nil (p : Char → Bool) (cs : List Char) :
    cs.takeWhile p ≠ [] ↔ ∃ d cs', cs = d :: cs' ∧ p d = true := by
  cases cs with
  | nil => simp
  | cons d cs' =>
    by_cases h : p d = true <;> simp [List.takeWhile_cons, h]

theorem takeWhile_run (p : Char → Bool) (ds rest : List Char)
    (hds : ∀ c ∈ ds, p c = true) (hrest : ∀ c, rest.head? = some c → p c = false) :
    (ds ++ rest).takeWhile p = ds := by
  induction ds with
  | nil =>
    cases rest with
    | nil => rfl
    | cons c cs => simp [List.takeWhile_cons, hrest c rfl]
  | cons d ds ih =>
    have hd : p d = true := hds d (List.mem_cons_self _ _)
    simp only [List.cons_append, List.takeWhile_cons, hd, if_true]
    rw [ih (fun c hc => hds c (List.mem_cons_of_mem _ hc))]

theorem rupee_not_digit : rupee.isDigit = false := by decide

theorem hasRupeeDigit_cons (c : Char) (cs : List Char) :
    HasRupeeDigit (c :: cs) ↔
      (c = rupee ∧ cs.takeWhile Char.isDigit ≠ []) ∨ HasRupeeDigit cs := by
  constructor
  · rintro ⟨d, hd, hin⟩
    rcases List.infix_cons_iff.mp hin with hp | hi
    · left
      obtain ⟨t, ht⟩ := hp
      simp only [List.cons_append, List.nil_append, List.cons.injEq] at ht
      obtain ⟨rfl, rfl⟩ := ht
      exact ⟨rfl, (takeWhile_ne_nil _ _).mpr ⟨d, t, rfl, hd⟩⟩
    · exact Or.inr ⟨d, hd, hi⟩
  · rintro (⟨rfl, h⟩ | ⟨d, hd, hi⟩)
    · obtain ⟨d, cs', rfl, hd⟩ := (takeWhile_ne_nil _ _).mp h
      exact ⟨d, hd, [], cs', rfl⟩
    · exact ⟨d, hd, List.infix_cons_iff.mpr (Or.inr hi)⟩

theorem matchRupeeDigits_none_iff (l : List Char) :
    matchRupeeDigits l = none ↔ ¬ HasRupeeDigit l := by
  induction l with
  | nil =>
    simp only [matchRupeeDigits, true_iff]
    rintro ⟨d, -, hin⟩
    simp at hin
  | cons c cs ih =>
    rw [hasRupeeDigit_cons, matchRupeeDigits]
    by_cases h : c = rupee ∧ cs.takeWhile Char.isDigit ≠ []
    · simp [h]
    · rw [if_neg h, ih]
      tauto

theorem matchRupeeDigits_mem (l ds : List Char) (h : matchRupeeDigits l = some ds) :
    rupee ∈ l := by
  induction l with
  | nil => simp [matchRupeeDigits] at h
  | cons c cs ih =>
    rw [matchRupeeDigits] at h
    by_cases hc : c = rupee ∧ cs.takeWhile Char.isDigit ≠ []
    · simp [hc.1]
    · rw [if_neg hc] at h
      exact List.mem_cons_of_mem _ (ih h)

theorem matchRupeeDigits_first (pre ds rest : List Char) (hpre : ¬ HasRupeeDigit pre)
    (hne : ds ≠ []) (hds : ∀ c ∈ ds, c.isDigit = true)
    (hrest : ∀ c, rest.head? = some c → c.isDigit = false) :
    matchRupeeDigits (pre ++ rupee :: (ds ++ rest)) = some ds := by
  induction pre with
  | nil =>
    have ht := takeWhile_run Char.isDigit ds rest hds hrest
    simp [matchRupeeDigits, ht, hne]
  | cons c pre ih =>
    rw [hasRupeeDigit_cons, not_or] at hpre
    have hcond : ¬ (c = rupee ∧ (pre ++ rupee :: (ds ++ rest)).takeWhile Char.isDigit ≠ []) := by
      rintro ⟨hc, ht⟩
      apply hpre.1
      refine ⟨hc, ?_⟩
      cases pre with
      | nil => simp [List.takeWhile_cons, rupee_not_digit] at ht
      | cons e pre' =>
        by_cases he : e.isDigit = true
        · simp [List.takeWhile_cons, he]
        · simp [List.takeWhile_cons, he] at ht
    rw [List.cons_append, matchRupeeDigits, if_neg hcond]
    exact ih hpre.2

theorem matchRupeeDigits_some_iff (l ds : List Char) :
    matchRupeeDigits l = some ds ↔ FirstRupeeRun l ds := by
  constructor
  · intro h
    induction l with
    | nil => simp [matchRupeeDigits] at h
    | cons c cs ih =>
      rw [matchRupeeDigits] at h
      by_cases hc : c = rupee ∧ cs.takeWhile Char.isDigit ≠ []
      · rw [if_pos hc] at h
        obtain ⟨rfl, hne⟩ := hc
        have hds : cs.takeWhile Char.isDigit = ds := Option.some.inj h
        refine ⟨[], cs.dropWhile Char.isDigit, ?_, ?_, hds ▸ hne, ?_, ?_⟩
        · rw [← hds, List.takeWhile_append_dropWhile]; rfl
        · rintro ⟨d, -, hin⟩; simp at hin
        · intro c hc; rw [← hds] at hc; exact List.mem_takeWhile_imp hc
        · intro c hc
          have := List.head?_dropWhile_not Char.isDigit cs
          rw [hc] at this
          simpa using this
      · rw [if_neg hc] at h
        obtain ⟨pre, rest, rfl, hpre, hne, hds, hrest⟩ := ih h
        refine ⟨c :: pre, rest, rfl, ?_, hne, hds, hrest⟩
        rw [hasRupeeDigit_cons, not_or]
        refine ⟨fun hh => hc ⟨hh.1, ?_⟩, hpre⟩
        obtain ⟨d, cs', hcs, hd⟩ := (takeWhile_ne_nil _ _).mp hh.2
        cases pre with
        | nil =>
          exfalso
          simp only [List.takeWhile_nil, ne_eq, not_true_eq_false] at hh
          exact hh.2
        | cons e pre' =>
          simp only [List.cons.injEq] at hcs
          obtain ⟨rfl, -⟩ := hcs
          simp [List.takeWhile_cons, hd]
  · rintro ⟨pre, rest, rfl, hpre, hne, hds, hrest⟩
    exact matchRupeeDigits_first pre ds rest hpre hne hds hrest

/-! ## Lemmas on numbers -/

theorem toNumber_small (n : Nat) (h : n < 2 ^ 53) : toNumber n = JSNumber.finite n := by
  unfold toNumber
  rw [if_pos h]

theorem excessBits_quot (fuel n : Nat) (hne : excessBits fuel n ≠ 0) :
    2 ^ 52 ≤ n / 2 ^ excessBits fuel n := by
  induction fuel generalizing n with
  | zero => exact absurd rfl hne
  | succ fuel ih =>
    unfold excessBits at hne ⊢
    by_cases hn : n < 2 ^ 53
    · rw [if_pos hn] at hne
      exact absurd rfl hne
    · rw [if_neg hn]
      have key : n / 2 ^ (excessBits fuel (n / 2) + 1) =
          n / 2 / 2 ^ excessBits fuel (n / 2) := by
        rw [Nat.div_div_eq_div_mul, ← pow_succ']
      rw [key]
      by_cases he : excessBits fuel (n / 2) = 0
      · rw [he, pow_zero, Nat.div_one]
        omega
      · exact ih (n / 2) he

theorem excessBits_self_pos (n : Nat) (h : 2 ^ 53 ≤ n) : 1 ≤ excessBits n n := by
  cases n with
  | zero => omega
  | succ k =>
    unfold excessBits
    rw [if_neg (by omega)]
    omega

theorem toNumber_large (n m : Nat) (h : 2 ^ 53 ≤ n) (hm : toNumber n = JSNumber.finite m) :
    2 ^ 53 ≤ m := by
  unfold toNumber at hm
  rw [if_neg (by omega)] at hm
  simp only at hm
  have he := excessBits_self_pos n h
  have hq := excessBits_quot n n (by omega)
  split_ifs at hm with h1 h2
  · have hm' := JSNumber.finite.inj hm
    rw [← hm']
    calc 2 ^ 53 = 2 ^ 52 * 2 ^ 1 := by norm_num
      _ ≤ (n / 2 ^ excessBits n n + 1) * 2 ^ excessBits n n :=
          Nat.mul_le_mul (by omega) (Nat.pow_le_pow_right (by norm_num) he)
  · have hm' := JSNumber.finite.inj hm
    rw [← hm']
    calc 2 ^ 53 = 2 ^ 52 * 2 ^ 1 := by norm_num
      _ ≤ (n / 2 ^ excessBits n n) * 2 ^ excessBits n n :=
          Nat.mul_le_mul hq (Nat.pow_le_pow_right (by norm_num) he)

theorem toNumber_ne_small (k n : Nat) (hn : n < 2 ^ 53) (hk : n < k) :
    toNumber k ≠ JSNumber.finite n := by
  intro h
  by_cases hk' : k < 2 ^ 53
  · rw [toNumber_small k hk'] at h
    have := JSNumber.finite.inj h
    omega
  · have := toNumber_large k n (by omega) h
    omega

theorem shortestFrom_small (n : Nat) (hn : n < 2 ^ 53) (e : Nat) : shortestFrom n e = n := by
  induction e with
  | zero => rfl
  | succ e ih =>
    unfold shortestFrom
    have hlo : n / 10 ^ (e + 1) * 10 ^ (e + 1) ≤ n := Nat.div_mul_le_self n _
    have hpos : 0 < 10 ^ (e + 1) := by positivity
    have hhi : n < n / 10 ^ (e + 1) * 10 ^ (e + 1) + 10 ^ (e + 1) := by
      have := Nat.lt_div_mul_add (a := n) hpos
      omega
    have hnhi := toNumber_ne_small _ n hn hhi
    simp only [hnhi, and_false, if_false]
    rw [toNumber_small _ (by omega)]
    by_cases heq : n / 10 ^ (e + 1) * 10 ^ (e + 1) = n
    · rw [if_pos (by rw [heq]), heq]
    · rw [if_neg (fun h => heq (JSNumber.finite.inj h)), ih]

theorem numberText_small (n : Nat) (hn : n < 2 ^ 53) :
    numberText (JSNumber.finite n) = Nat.repr n := by
  unfold numberText shortestDecimal
  simp only [shortestFrom_small n hn]
  rw [if_pos (by omega)]
  rfl

theorem toNumber_zero_iff (n : Nat) : toNumber n = JSNumber.finite 0 ↔ n = 0 := by
  constructor
  · intro h
    by_cases hn : n < 2 ^ 53
    · rw [toNumber_small n hn] at h
      exact JSNumber.finite.inj h
    · have := toNumber_large n 0 (by omega) h
      omega
  · rintro rfl
    rfl

/-! ## Lemmas on the negotiation logic -/

theorem ninety_percent_iff (a m : Nat) : (0.90 : ℚ) * (m : ℚ) ≤ (a : ℚ) ↔ 9 * m ≤ 10 * a := by
  constructor
  · intro h
    have h2 : ((9 * m : Nat) : ℚ) ≤ ((10 * a : Nat) : ℚ) := by
      push_cast
      norm_num at h
      linarith
    exact_mod_cast h2
  · intro h
    have h2 : ((9 * m : Nat) : ℚ) ≤ ((10 * a : Nat) : ℚ) := by exact_mod_cast h
    push_cast at h2
    norm_num
    linarith

theorem seventyfive_percent_iff (a m : Nat) :
    (a : ℚ) < (0.75 : ℚ) * (m : ℚ) ↔ 4 * a < 3 * m := by
  constructor
  · intro h
    have h2 : ((4 * a : Nat) : ℚ) < ((3 * m : Nat) : ℚ) := by
      push_cast
      norm_num at h
      linarith
    exact_mod_cast h2
  · intro h
    have h2 : ((4 * a : Nat) : ℚ) < ((3 * m : Nat) : ℚ) := by exact_mod_cast h
    push_cast at h2
    norm_num
    linarith

theorem offeredPrice_some_mem (message : String) (a : JSNumber)
    (h : offeredPrice message = some a) : rupee ∈ message.data := by
  unfold offeredPrice at h
  cases hm : matchRupeeDigits message.data with
  | none => rw [hm] at h; simp [parseInt] at h
  | some ds => exact matchRupeeDigits_mem _ _ hm

theorem negotiate_of_rupee (message : String) (p : Product) (h : rupee ∈ message.data) :
    negotiate message p = priceBranch message p := by
  unfold negotiate
  rw [if_pos ((includes_rupee message).mpr h)]

theorem negotiate_of_not_rupee (message : String) (p : Product) (h : rupee ∉ message.data) :
    negotiate message p =
      if includes (toLowerCase message) "hello" || includes (toLowerCase message) "hi" then
        { reply := greetingReply p, isDealFinal := false, finalPrice := 0 }
      else
        { reply := genericReply p, isDealFinal := false, finalPrice := 0 } := by
  unfold negotiate
  rw [if_neg (fun hh => h ((includes_rupee message).mp hh))]

theorem priceBranch_accept (message : String) (p : Product) (a : Nat)
    (ha : offeredPrice message = some (JSNumber.finite a)) (h0 : a ≠ 0)
    (h9 : 9 * p.mrp ≤ 10 * a) :
    priceBranch message p =
      { reply := acceptReply (JSNumber.finite a) p, isDealFinal := true,
        finalPrice := JSNumber.finite a } := by
  unfold priceBranch
  rw [ha]
  have h1 : ¬ 4 * a < 3 * p.mrp := by omega
  simp [JSNumber.truthy, JSNumber.ltThreeQuarters, JSNumber.geNineTenths, h0, h1, h9]

theorem priceBranch_accept_infinity (message : String) (p : Product)
    (ha : offeredPrice message = some JSNumber.infinity) :
    priceBranch message p =
      { reply := acceptReply JSNumber.infinity p, isDealFinal := true,
        finalPrice := JSNumber.infinity } := by
  unfold priceBranch
  rw [ha]
  simp [JSNumber.truthy, JSNumber.ltThreeQuarters, JSNumber.geNineTenths]

theorem priceBranch_low (message : String) (p : Product) (a : Nat)
    (ha : offeredPrice message = some (JSNumber.finite a)) (h0 : a ≠ 0)
    (h4 : 4 * a < 3 * p.mrp) :
    priceBranch message p =
      { reply := lowReply (JSNumber.finite a) p, isDealFinal := false, finalPrice := 0 } := by
  unfold priceBranch
  rw [ha]
  simp [JSNumber.truthy, JSNumber.ltThreeQuarters, h0, h4]

theorem priceBranch_probe (message : String) (p : Product) (a : Nat)
    (ha : offeredPrice message = some (JSNumber.finite a)) (h0 : a ≠ 0)
    (h4 : 3 * p.mrp ≤ 4 * a) (h9 : 10 * a < 9 * p.mrp) :
    priceBranch message p =
      { reply := probeReply (JSNumber.finite a) p, isDealFinal := false, finalPrice := 0 } := by
  unfold priceBranch
  rw [ha]
  have h1 : ¬ 4 * a < 3 * p.mrp := by omega
  have h2 : ¬ 9 * p.mrp ≤ 10 * a := by omega
  simp [JSNumber.truthy, JSNumber.ltThreeQuarters, JSNumber.geNineTenths, h0, h1, h2]

theorem priceBranch_reprompt (message : String) (p : Product)
    (ha : offeredPrice message = none ∨ offeredPrice message = some 0) :
    priceBranch message p =
      { reply := repromptReply, isDealFinal := false, finalPrice := 0 } := by
  unfold priceBranch
  rcases ha with ha | ha
  · rw [ha]
  · rw [ha]
    rfl

theorem infix_mid (a m b : String) : m.data <:+: (a ++ m ++ b).data := by
  simp only [String.data_append, List.append_assoc]
  exact List.infix_append' _ _ _

theorem infix_append_right (x : List Char) (s t : String) (h : x <:+: s.data) :
    x <:+: (s ++ t).data := by
  rw [String.data_append]
  exact h.trans (List.infix_append' [] s.data t.data)

theorem lowReply_head (a : JSNumber) (p : Product) :
    (lowReply a p).data.take 2 = ['Y', 'o'] := rfl

theorem acceptReply_head (a : JSNumber) (p : Product) :
    (acceptReply a p).data.take 2 = ['T', 'h'] := rfl

theorem probeReply_head (a : JSNumber) (p : Product) :
    (probeReply a p).data.take 2 = ['H', 'm'] := rfl

theorem repromptReply_head : repromptReply.data.take 2 = ['P', 'l'] := rfl

theorem greetingReply_head (p : Product) : (greetingReply p).data.take 2 = ['H', 'e'] := rfl

theorem genericReply_head (p : Product) : (genericReply p).data.take 2 = ['I', Char.ofNat 39] := rfl

theorem priceBranch_congr (m₁ m₂ : String) (p : Product)
    (h : offeredPrice m₁ = offeredPrice m₂) : priceBranch m₁ p = priceBranch m₂ p := by
  unfold priceBranch
  rw [h]

theorem priceBranch_reply_head (message : String) (p : Product) :
    (priceBranch message p).reply.data.take 2 ∈
      [['Y', 'o'], ['T', 'h'], ['H', 'm'], ['P', 'l']] := by
  unfold priceBranch
  split
  · split_ifs
    · simp [lowReply_head]
    · simp [acceptReply_head]
    · simp [probeReply_head]
    · simp [repromptReply_head]
  · simp [repromptReply_head]

theorem priceBranch_final (message : String) (p : Product)
    (h : (priceBranch message p).isDealFinal = true) :
    offeredPrice message = some (priceBranch message p).finalPrice := by
  unfold priceBranch at h ⊢
  cases ho : offeredPrice message with
  | none => simp [ho] at h
  | some a =>
    simp only [ho] at h ⊢
    split_ifs at h ⊢
    rfl

theorem priceBranch_not_final (message : String) (p : Product)
    (h : (priceBranch message p).isDealFinal = false) :
    (priceBranch message p).finalPrice = 0 := by
  unfold priceBranch at h ⊢
  cases ho : offeredPrice message with
  | none => rfl
  | some a =>
    simp only [ho] at h ⊢
    split_ifs at h ⊢ <;> rfl

theorem negotiate_final (message : String) (p : Product)
    (h : (negotiate message p).isDealFinal = true) :
    offeredPrice message = some (negotiate message p).finalPrice := by
  by_cases hr : rupee ∈ message.data
  · rw [negotiate_of_rupee message p hr] at h ⊢
    exact priceBranch_final message p h
  · rw [negotiate_of_not_rupee message p hr] at h
    split_ifs at h

theorem negotiate_not_final (message : String) (p : Product)
    (h : (negotiate message p).isDealFinal = false) :
    (negotiate message p).finalPrice = 0 := by
  by_cases hr : rupee ∈ message.data
  · rw [negotiate_of_rupee message p hr] at h ⊢
    exact priceBranch_not_final message p h
  · rw [negotiate_of_not_rupee message p hr]
    split_ifs <;> rfl

theorem send_message_vendor (socket : Socket) (data : SendData) (p : Product)
    (hp : products.find? (fun q => q.id == data.chatRoom) = some p)
    (hv : data.user = "Vendor") :
    send_message socket data =
      (socket, ⟨0, Target.room data.chatRoom, Event.chat_message data.user data.message none⟩
        :: replyEmissions data p) := by
  unfold send_message
  simp only [hp]
  rw [if_pos hv]

theorem replyEmissions_final (data : SendData) (p : Product)
    (h : (negotiate data.message p).isDealFinal = true) :
    replyEmissions data p =
      [⟨1500, Target.room data.chatRoom,
          Event.chat_message "Supplier" (negotiate data.message p).reply none⟩,
        ⟨1500, Target.room data.chatRoom,
          Event.deal_finalized (negotiate data.message p).finalPrice "9876543210" data.mobile
            "5 km"⟩] := by
  simp [replyEmissions, h]

theorem replyEmissions_not_final (data : SendData) (p : Product)
    (h : (negotiate data.message p).isDealFinal = false) :
    replyEmissions data p =
      [⟨1500, Target.room data.chatRoom,
          Event.chat_message "Supplier" (negotiate data.message p).reply none⟩] := by
  simp [replyEmissions, h]

theorem observedOutcome_reply (data : SendData) (p : Product) (user message : String) :
    observedOutcome
        (⟨0, Target.room data.chatRoom, Event.chat_message user message none⟩
          :: replyEmissions data p) = some (negotiate data.message p) := by
  cases h : (negotiate data.message p).isDealFinal with
  | false =>
    rw [replyEmissions_not_final data p h]
    have h0 := negotiate_not_final data.message p h
    simp only [observedOutcome, List.filter]
    show some _ = some _
    congr 1
    cases hn : negotiate data.message p with
    | mk r f n =>
      rw [hn] at h h0
      simp only at h h0
      subst h h0
      rfl
  | true =>
    rw [replyEmissions_final data p h]
    simp only [observedOutcome, List.filter]
    show some _ = some _
    congr 1
    cases hn : negotiate data.message p with
    | mk r f n =>
      rw [hn] at h
      simp only at h
      subst h
      rfl

theorem find_none_of_no_id (chatRoom : String)
    (h : ∀ p ∈ products, p.id ≠ chatRoom) :
    products.find? (fun q => q.id == chatRoom) = none := by
  rw [List.find?_eq_none]
  intro p hp
  simpa using h p hp

theorem send_message_unresolved (socket : Socket) (data : SendData)
    (hp : products.find? (fun q => q.id == data.chatRoom) = none) :
    send_message socket data =
      (socket, [⟨0, Target.room data.chatRoom,
        Event.chat_message data.user data.message none⟩]) := by
  unfold send_message
  simp only [hp]

theorem send_message_other (socket : Socket) (data : SendData) (p : Product)
    (hp : products.find? (fun q => q.id == data.chatRoom) = some p)
    (hv : data.user ≠ "Vendor") :
    send_message socket data =
      (socket, [⟨0, Target.room data.chatRoom,
        Event.chat_message data.user data.message none⟩]) := by
  unfold send_message
  simp only [hp]
  rw [if_neg hv]

theorem send_message_state (socket : Socket) (data : SendData) :
    (send_message socket data).1 = socket := by
  unfold send_message
  split
  · rfl
  · split_ifs <;> rfl

theorem send_message_emissions_eq (socket socket' : Socket) (data : SendData) :
    (send_message socket' data).2 = (send_message socket data).2 := by
  unfold send_message
  split
  · rfl
  · split_ifs <;> rfl

theorem handleAll_append (socket : Socket) (xs ys : List ClientEvent) :
    handleAll socket (xs ++ ys) =
      ((handleAll (handleAll socket xs).1 ys).1,
        (handleAll socket xs).2 ++ (handleAll (handleAll socket xs).1 ys).2) := by
  induction xs generalizing socket with
  | nil => simp [handleAll]
  | cons x xs ih =>
    show handleAll socket (x :: (xs ++ ys)) = _
    rw [handleAll, ih, handleAll]
    simp only [List.append_assoc]

theorem welcomeText_some (p : Product) :
    welcomeText (some p) =
      "Welcome to the chat for " ++ p.name ++ "! MRP: ₹" ++ Nat.repr p.mrp ++ "/" ++ p.unit
        ++ ". You can now negotiate the price." := by
  apply String.ext
  simp only [welcomeText, mrpText, String.data_append, List.append_assoc]
  rfl

theorem toLowerCase_empty : toLowerCase "" = "" := rfl

theorem filteredProducts_query (q : String) :
    filteredProducts (some q) =
      products.filter (fun p =>
        includes (toLowerCase p.name) (toLowerCase q)
          || includes (toLowerCase p.supplier) (toLowerCase q)) := by
  unfold filteredProducts
  by_cases hq : q = ""
  · subst hq
    simp only [ne_eq, not_true_eq_false, if_false, toLowerCase_empty]
  · simp only [ne_eq, hq, not_false_eq_true, if_true]

theorem products_nodup : products.Nodup := by decide

theorem includes_empty (s : String) : includes s "" = true :=
  (includes_iff s "").mpr List.nil_infix

theorem filteredProducts_none : filteredProducts none = products := by
  unfold filteredProducts
  rw [List.filter_eq_self]
  intro p _
  simp only [includes_empty, Bool.or_self]

theorem filteredProducts_empty : filteredProducts (some "") = products := by
  rw [filteredProducts_query, toLowerCase_empty, List.filter_eq_self]
  intro p _
  simp only [includes_empty, Bool.or_self]

theorem digitsValue_zeros (ds : List Char) (hz : ∀ c ∈ ds, c = '0') : digitsValue ds = 0 := by
  unfold digitsValue
  have key : ∀ (l : List Char) (acc : Nat), (∀ c ∈ l, c = '0') → acc = 0 →
      l.foldl (fun acc d => 10 * acc + digitValue d) acc = 0 := by
    intro l
    induction l with
    | nil => intro acc _ h; exact h
    | cons c cs ih =>
      intro acc hl hacc
      have hc : c = '0' := hl c (List.mem_cons_self _ _)
      subst hc hacc
      exact ih _ (fun d hd => hl d (List.mem_cons_of_mem _ hd)) (by decide)
  exact key ds 0 hz rfl

theorem offeredPrice_of_run (message : String) (ds : List Char)
    (h : FirstRupeeRun message.data ds) :
    offeredPrice message = some (toNumber (digitsValue ds)) := by
  unfold offeredPrice
  rw [(matchRupeeDigits_some_iff _ _).mpr h]
  rfl

theorem run_of_offeredPrice (message : String) (a : JSNumber)
    (h : offeredPrice message = some a) :
    ∃ ds, FirstRupeeRun message.data ds ∧ toNumber (digitsValue ds) = a := by
  unfold offeredPrice at h
  cases hm : matchRupeeDigits message.data with
  | none => rw [hm] at h; simp [parseInt] at h
  | some ds =>
    rw [hm] at h
    exact ⟨ds, (matchRupeeDigits_some_iff _ _).mp hm, Option.some.inj h⟩

theorem priceBranch_accept_inv (message : String) (p : Product)
    (h : (priceBranch message p).isDealFinal = true) :
    ∃ a, offeredPrice message = some a ∧ (priceBranch message p).finalPrice = a ∧
      a.truthy = true ∧ a.geNineTenths p.mrp = true := by
  unfold priceBranch at h ⊢
  cases ho : offeredPrice message with
  | none => simp [ho] at h
  | some a =>
    simp only [ho] at h ⊢
    split_ifs at h ⊢
    rename_i h0 _ h9
    exact ⟨a, rfl, rfl, h0, h9⟩

theorem negotiate_accept_inv (message : String) (p : Product)
    (h : (negotiate message p).isDealFinal = true) :
    ∃ a, offeredPrice message = some a ∧ (negotiate message p).finalPrice = a ∧
      a.truthy = true ∧ a.geNineTenths p.mrp = true := by
  by_cases hr : rupee ∈ message.data
  · rw [negotiate_of_rupee message p hr] at h ⊢
    exact priceBranch_accept_inv message p h
  · rw [negotiate_of_not_rupee message p hr] at h
    split_ifs at h

theorem product_suppliers_notFound_iff (productId message : String) :
    product_suppliers productId = Response.notFound message ↔
      message = "No suppliers found for this product." ∧
        productSuppliersMap.lookup productId = none ∧ productId ∉ objectPrototypeKeys := by
  unfold product_suppliers getProperty
  cases hl : productSuppliersMap.lookup productId with
  | some l => simp
  | none =>
    by_cases hk : productId ∈ objectPrototypeKeys
    · simp [hk]
    · simp only [hk, if_false, Response.notFound.injEq, not_false_eq_true, and_self, and_true]
      exact eq_comm

/-! ## The negotiation rules -/

/-- C1 (accept rule): for a product with reference price `m > 0` and a message
whose first digit run after `₹` parses to the integer `a` (the number that
`parseInt` returns), if `a >= 0.90 * m` then the deal is accepted, the final
price is `a`, and the reply is the accept text quoting `a`, as the template
literal prints it, and the unit of the product; for `a < 2^53` the quoted text
is the decimal form of `a`. -/
theorem accept_rule (message : String) (p : Product) (a : Nat)
    (hm : 0 < p.mrp) (ha : offeredPrice message = some (JSNumber.finite a))
    (hge : (0.90 : ℚ) * (p.mrp : ℚ) ≤ (a : ℚ)) :
    (negotiate message p).isDealFinal = true ∧
      (negotiate message p).finalPrice = JSNumber.finite a ∧
      (negotiate message p).reply =
        "That's a good offer of ₹" ++ numberText (JSNumber.finite a) ++ "/" ++ p.unit
          ++ "! I accept. Let's finalize this." ∧
      (a < 2 ^ 53 →
        (negotiate message p).reply =
          "That's a good offer of ₹" ++ Nat.repr a ++ "/" ++ p.unit
            ++ "! I accept. Let's finalize this.") := by
  have h9 : 9 * p.mrp ≤ 10 * a := (ninety_percent_iff a p.mrp).mp hge
  have h0 : a ≠ 0 := by omega
  rw [negotiate_of_rupee message p (offeredPrice_some_mem message _ ha),
    priceBranch_accept message p a ha h0 h9]
  refine ⟨rfl, rfl, rfl, fun hlt => ?_⟩
  show acceptReply (JSNumber.finite a) p = _
  unfold acceptReply
  rw [numberText_small a hlt]

/-- Witness of C1 on the catalog product `p2` (MRP 40): `₹36/kg` offers
exactly 90% of the MRP; the 16-digit run `9007199254740993` parses to the
double 9007199254740992, which is the final price; and the 22-digit run
`1000000000000000000000` is quoted as `1e+21`. -/
theorem accept_rule_witness :
    ((negotiate "₹36/kg" products[1]).isDealFinal = true ∧
      (negotiate "₹36/kg" products[1]).finalPrice = 36 ∧
      (negotiate "₹36/kg" products[1]).reply =
        "That's a good offer of ₹36/kg! I accept. Let's finalize this.") ∧
    (negotiate "₹9007199254740993" products[1]).finalPrice = 9007199254740992 ∧
    (negotiate "₹1000000000000000000000" products[1]).reply =
      "That's a good offer of ₹1e+21/kg! I accept. Let's finalize this." :=
  ⟨⟨(accept_rule "₹36/kg" products[1] 36 (by decide) (by decide)
        ((ninety_percent_iff 36 40).mpr (by decide))).1,
      (accept_rule "₹36/kg" products[1] 36 (by decide) (by decide)
        ((ninety_percent_iff 36 40).mpr (by decide))).2.1,
      ((accept_rule "₹36/kg" products[1] 36 (by decide) (by decide)
        ((ninety_percent_iff 36 40).mpr (by decide))).2.2.2 (by decide)).trans (by decide)⟩,
    (accept_rule "₹9007199254740993" products[1] 9007199254740992 (by decide) (by decide)
      ((ninety_percent_iff 9007199254740992 40).mpr (by decide))).2.1,
    ((accept_rule "₹1000000000000000000000" products[1] 1000000000000000000000 (by decide)
      (by decide) ((ninety_percent_iff 1000000000000000000000 40).mpr (by decide))).2.2.1).trans
      (by decide)⟩

/-- C2 fails on the code at the amount 0: on the catalog product `p2` (MRP 40)
the Vendor message `₹0` parses to `0`, which is below 75% of the MRP, yet the
test `if (offeredPrice)` is false for `0` and the reply is the re-prompt text,
not the reject-as-low text quoting the MRP. -/
theorem reject_low_rule_fails_at_zero :
    0 < products[1].mrp ∧ offeredPrice "₹0" = some 0 ∧
    ((0 : Nat) : ℚ) < (0.75 : ℚ) * ((products[1].mrp : Nat) : ℚ) ∧
    (negotiate "₹0" products[1]).reply ≠ lowReply 0 products[1] ∧
    negotiate "₹0" products[1] =
      { reply := "Please specify your price offer clearly (e.g., '₹XX/kg').",
        isDealFinal := false, finalPrice := 0 } ∧
    (send_message ⟨[], none, none⟩ ⟨"p2", "Vendor", "₹0", "9000000001"⟩).2 =
      [⟨0, Target.room "p2", Event.chat_message "Vendor" "₹0" none⟩,
        ⟨1500, Target.room "p2", Event.chat_message "Supplier"
          "Please specify your price offer clearly (e.g., '₹XX/kg')." none⟩] :=
  ⟨by decide, by decide, (seventyfive_percent_iff 0 40).mpr (by decide), by decide, by decide,
    by decide⟩

/-- The reject-as-low rule on positive amounts, the part of C2 that the code
implements: for a message whose offered price parses to `a > 0`, if
`a < 0.75 * m` for the reference price `m` of the product, then no deal is
accepted and the reply is the reject-as-low text, which contains the decimal
rendering of `m`. -/
theorem reject_low_rule (message : String) (p : Product) (a : Nat)
    (ha : offeredPrice message = some (JSNumber.finite a)) (hpos : 0 < a)
    (hlt : (a : ℚ) < (0.75 : ℚ) * (p.mrp : ℚ)) :
    (negotiate message p).isDealFinal = false ∧
      (negotiate message p).reply =
        "Your offer of ₹" ++ numberText (JSNumber.finite a) ++ "/" ++ p.unit
          ++ " is a bit low. The MRP is ₹" ++ Nat.repr p.mrp ++ ". Can you increase it?" ∧
      (Nat.repr p.mrp).data <:+: (negotiate message p).reply.data := by
  have h4 : 4 * a < 3 * p.mrp := (seventyfive_percent_iff a p.mrp).mp hlt
  have h0 : a ≠ 0 := by omega
  rw [negotiate_of_rupee message p (offeredPrice_some_mem message _ ha),
    priceBranch_low message p a ha h0 h4]
  exact ⟨rfl, rfl, infix_mid _ _ _⟩

/-- The reject-as-low rule on the catalog product `p2` (MRP 40) and the offer
`₹25/kg`. -/
theorem reject_low_rule_witness :
    (negotiate "₹25/kg" products[1]).isDealFinal = false ∧
      (negotiate "₹25/kg" products[1]).reply =
        "Your offer of ₹" ++ numberText (JSNumber.finite 25) ++ "/" ++ products[1].unit
          ++ " is a bit low. The MRP is ₹" ++ Nat.repr products[1].mrp
          ++ ". Can you increase it?" ∧
      (Nat.repr products[1].mrp).data <:+: (negotiate "₹25/kg" products[1]).reply.data :=
  reject_low_rule "₹25/kg" products[1] 25 (by decide) (by decide)
    ((seventyfive_percent_iff 25 40).mpr (by decide))

/-- C3 (counter-probe rule): for a product with reference price `m` and a
message whose offered price parses to `a` with `0.75 * m <= a < 0.90 * m`
(the lower bound included; the bounds force `m > 0`), no deal is accepted and
the reply is the counter-probe text quoting `a`, as the template literal
prints it, which for `a < 2^53` is the decimal form of `a`; it is never a
reject-as-low text. -/
theorem counter_probe_rule (message : String) (p : Product) (a : Nat)
    (ha : offeredPrice message = some (JSNumber.finite a))
    (hge : (0.75 : ℚ) * (p.mrp : ℚ) ≤ (a : ℚ)) (hlt : (a : ℚ) < (0.90 : ℚ) * (p.mrp : ℚ)) :
    (negotiate message p).isDealFinal = false ∧
      (negotiate message p).reply =
        "Hmm, for ₹" ++ numberText (JSNumber.finite a) ++ "/" ++ p.unit
          ++ ", what quantity are you looking for? I can consider a little more." ∧
      (a < 2 ^ 53 →
        (negotiate message p).reply =
          "Hmm, for ₹" ++ Nat.repr a ++ "/" ++ p.unit
            ++ ", what quantity are you looking for? I can consider a little more.") ∧
      ∀ (b : JSNumber) (q : Product), (negotiate message p).reply ≠ lowReply b q := by
  have h4 : 3 * p.mrp ≤ 4 * a := by
    have := (seventyfive_percent_iff a p.mrp).not.mp (not_lt.mpr hge)
    omega
  have h9 : 10 * a < 9 * p.mrp := by
    have := (ninety_percent_iff a p.mrp).not.mp (not_le.mpr hlt)
    omega
  have h0 : a ≠ 0 := by omega
  rw [negotiate_of_rupee message p (offeredPrice_some_mem message _ ha),
    priceBranch_probe message p a ha h0 h4 h9]
  refine ⟨rfl, rfl, fun hsmall => ?_, fun b q h => ?_⟩
  · show probeReply (JSNumber.finite a) p = _
    unfold probeReply
    rw [numberText_small a hsmall]
  · have h2 : (probeReply (JSNumber.finite a) p).data.take 2 = (lowReply b q).data.take 2 :=
      congrArg (fun t : String => t.data.take 2) h
    rw [probeReply_head, lowReply_head] at h2
    exact absurd h2 (by decide)

/-- Witness of C3 at the inclusive boundary: on the catalog product `p2`
(MRP 40) the offer `₹30` is exactly 75% of the MRP. -/
theorem counter_probe_rule_witness :
    (negotiate "₹30" products[1]).isDealFinal = false ∧
      (negotiate "₹30" products[1]).reply =
        "Hmm, for ₹" ++ Nat.repr 30 ++ "/" ++ products[1].unit
          ++ ", what quantity are you looking for? I can consider a little more." ∧
      ∀ (b : JSNumber) (q : Product), (negotiate "₹30" products[1]).reply ≠ lowReply b q :=
  ⟨(counter_probe_rule "₹30" products[1] 30 (by decide)
      (not_lt.mp ((seventyfive_percent_iff 30 40).not.mpr (by decide)))
      (not_le.mp ((ninety_percent_iff 30 40).not.mpr (by decide)))).1,
    (counter_probe_rule "₹30" products[1] 30 (by decide)
      (not_lt.mp ((seventyfive_percent_iff 30 40).not.mpr (by decide)))
      (not_le.mp ((ninety_percent_iff 30 40).not.mpr (by decide)))).2.2.1 (by decide),
    (counter_probe_rule "₹30" products[1] 30 (by decide)
      (not_lt.mp ((seventyfive_percent_iff 30 40).not.mpr (by decide)))
      (not_le.mp ((ninety_percent_iff 30 40).not.mpr (by decide)))).2.2.2⟩

/-- C4 (malformed offer): for a message that contains `₹` but in which no `₹`
is directly followed by a decimal digit, the reply is the re-prompt text and
no deal is accepted; the evaluation is total. -/
theorem malformed_offer_reprompt (message : String) (p : Product)
    (hmark : rupee ∈ message.data) (hno : ¬ HasRupeeDigit message.data) :
    negotiate message p =
      { reply := "Please specify your price offer clearly (e.g., '₹XX/kg').",
        isDealFinal := false, finalPrice := 0 } := by
  have hnone : offeredPrice message = none := by
    unfold offeredPrice
    rw [(matchRupeeDigits_none_iff _).mpr hno]
    rfl
  rw [negotiate_of_rupee message p hmark, priceBranch_reprompt message p (Or.inl hnone)]
  rfl

/-- Witness of C4 on the messages `₹ please` and `₹ 450`. -/
theorem malformed_offer_reprompt_witness :
    negotiate "₹ please" products[1] =
      { reply := "Please specify your price offer clearly (e.g., '₹XX/kg').",
        isDealFinal := false, finalPrice := 0 } ∧
    negotiate "₹ 450" products[1] =
      { reply := "Please specify your price offer clearly (e.g., '₹XX/kg').",
        isDealFinal := false, finalPrice := 0 } :=
  ⟨malformed_offer_reprompt "₹ please" products[1] (by decide)
      ((matchRupeeDigits_none_iff _).mp (by decide)),
    malformed_offer_reprompt "₹ 450" products[1] (by decide)
      ((matchRupeeDigits_none_iff _).mp (by decide))⟩

/-- C5 as stated fails above `2^53`: in `₹9007199254740993 or ₹40` the first
digit run has the value 9007199254740993, but the amount that is classified
is the double `parseInt` returns for it, 9007199254740992. -/
theorem first_match_wins_rounding_counterexample :
    FirstRupeeRun "₹9007199254740993 or ₹40".data "9007199254740993".data ∧
    digitsValue "9007199254740993".data = 9007199254740993 ∧
    offeredPrice "₹9007199254740993 or ₹40" = some (JSNumber.finite 9007199254740992) ∧
    offeredPrice "₹9007199254740993 or ₹40" ≠
      some (JSNumber.finite (digitsValue "9007199254740993".data)) :=
  ⟨(matchRupeeDigits_some_iff _ _).mp (by decide), by decide, by decide, by decide⟩

/-- C5 (first match wins, amended to the number that `parseInt` returns): when
the message is `pre ++ ₹ :: ds ++ rest` with no `₹` of `pre` directly followed
by a digit and `ds` the maximal digit run after that `₹`, the offered price is
the Number value of the decimal value of `ds`, which is that value itself
below `2^53`, and the outcome is the same as for any other message with the
same first run; what follows the run, later `₹` numbers included, has no
influence. -/
theorem first_match_wins (message : String) (p : Product) (ds : List Char)
    (h : FirstRupeeRun message.data ds) :
    offeredPrice message = some (toNumber (digitsValue ds)) ∧
      (digitsValue ds < 2 ^ 53 →
        offeredPrice message = some (JSNumber.finite (digitsValue ds))) ∧
      ∀ message' : String, FirstRupeeRun message'.data ds →
        negotiate message' p = negotiate message p := by
  have hoff := offeredPrice_of_run message ds h
  refine ⟨hoff, fun hsmall => ?_, fun message' h' => ?_⟩
  · rw [hoff, toNumber_small _ hsmall]
  · have hoff' := offeredPrice_of_run message' ds h'
    rw [negotiate_of_rupee message p (offeredPrice_some_mem message _ hoff),
      negotiate_of_rupee message' p (offeredPrice_some_mem message' _ hoff')]
    exact priceBranch_congr _ _ p (hoff'.trans hoff.symm)

/-- Witness of C5: `₹20 or ₹40` on the catalog product `p2` (MRP 40) is
classified as 20, exactly like `₹20`. -/
theorem first_match_wins_witness :
    offeredPrice "₹20 or ₹40" = some 20 ∧
      negotiate "₹20" products[1] = negotiate "₹20 or ₹40" products[1] :=
  ⟨(first_match_wins "₹20 or ₹40" products[1] ['2', '0']
      ((matchRupeeDigits_some_iff _ _).mp (by decide))).2.1 (by decide),
    (first_match_wins "₹20 or ₹40" products[1] ['2', '0']
      ((matchRupeeDigits_some_iff _ _).mp (by decide))).2.2 "₹20"
      ((matchRupeeDigits_some_iff _ _).mp (by decide))⟩

/-- C6 (greeting rule): for a message without `₹` whose lower-cased form
contains `hello` or `hi`, the reply is the greeting text built from the
supplier, name, reference price and unit of the product; it contains the
supplier name and the reference price, and no deal is accepted. -/
theorem greeting_rule (message : String) (p : Product) (hno : rupee ∉ message.data)
    (hgreet : "hello".data <:+: (toLowerCase message).data ∨
      "hi".data <:+: (toLowerCase message).data) :
    negotiate message p =
      { reply := "Hello! This is " ++ p.supplier ++ ". The MRP for " ++ p.name ++ " is ₹"
          ++ Nat.repr p.mrp ++ "/" ++ p.unit ++ ". What is your offer?",
        isDealFinal := false, finalPrice := 0 } ∧
      p.supplier.data <:+: (negotiate message p).reply.data ∧
      (Nat.repr p.mrp).data <:+: (negotiate message p).reply.data := by
  have hcond : (includes (toLowerCase message) "hello" ||
      includes (toLowerCase message) "hi") = true := by
    rw [Bool.or_eq_true, includes_iff, includes_iff]
    exact hgreet
  rw [negotiate_of_not_rupee message p hno, if_pos hcond]
  refine ⟨rfl, ?_, ?_⟩
  · exact infix_append_right _ _ _ (infix_append_right _ _ _ (infix_append_right _ _ _
      (infix_append_right _ _ _ (infix_append_right _ _ _ (infix_append_right _ _ _
        (infix_mid _ _ _))))))
  · exact infix_append_right _ _ _ (infix_append_right _ _ _ (infix_mid _ _ _))

/-- Witness of C6 on `hi there` and on `HELLO` with the catalog product `p2`. -/
theorem greeting_rule_witness :
    (negotiate "hi there" products[1]).reply =
        "Hello! This is Green Farms. The MRP for Premium Tomatoes is ₹40/kg. What is your offer?" ∧
      (negotiate "HELLO" products[1]).reply =
        "Hello! This is Green Farms. The MRP for Premium Tomatoes is ₹40/kg. What is your offer?" :=
  ⟨(congrArg Outcome.reply (greeting_rule "hi there" products[1] (by decide)
      (Or.inr ((includes_iff _ _).mp (by decide)))).1).trans (by decide),
    (congrArg Outcome.reply (greeting_rule "HELLO" products[1] (by decide)
      (Or.inl ((includes_iff _ _).mp (by decide)))).1).trans (by decide)⟩

/-- C7 (generic rule): for a message that contains neither `₹` nor, after
lower-casing, `hello` nor `hi`, the reply is the generic text restating the
reference price and unit of the product, and no deal is accepted. -/
theorem generic_rule (message : String) (p : Product) (hno : rupee ∉ message.data)
    (hhello : ¬ "hello".data <:+: (toLowerCase message).data)
    (hhi : ¬ "hi".data <:+: (toLowerCase message).data) :
    negotiate message p =
      { reply := "I'm here to help. The MRP is ₹" ++ Nat.repr p.mrp ++ "/" ++ p.unit
          ++ ". What is your offer?",
        isDealFinal := false, finalPrice := 0 } := by
  have hcond : ¬ (includes (toLowerCase message) "hello" ||
      includes (toLowerCase message) "hi") = true := by
    rw [Bool.or_eq_true, includes_iff, includes_iff]
    exact not_or.mpr ⟨hhello, hhi⟩
  rw [negotiate_of_not_rupee message p hno, if_neg hcond]
  rfl

/-- Witness of C7 on `good morning` with the catalog product `p2`. -/
theorem generic_rule_witness :
    negotiate "good morning" products[1] =
      { reply := "I'm here to help. The MRP is ₹" ++ Nat.repr products[1].mrp ++ "/"
          ++ products[1].unit ++ ". What is your offer?",
        isDealFinal := false, finalPrice := 0 } :=
  generic_rule "good morning" products[1] (by decide)
    (fun h => absurd ((includes_iff _ _).mpr h) (by decide))
    (fun h => absurd ((includes_iff _ _).mpr h) (by decide))

/-- C8 (rule precedence): for a message that contains `₹` the outcome is that
of the currency rule alone: it is never a greeting or generic reply, and any
two messages containing `₹` with the same offered price, with or without a
greeting, have the same outcome. -/
theorem currency_rule_precedence (message : String) (p : Product)
    (hmark : rupee ∈ message.data) :
    negotiate message p = priceBranch message p ∧
      (∀ q : Product, (negotiate message p).reply ≠ greetingReply q) ∧
      (∀ q : Product, (negotiate message p).reply ≠ genericReply q) ∧
      ∀ message' : String, rupee ∈ message'.data →
        offeredPrice message' = offeredPrice message →
        negotiate message' p = negotiate message p := by
  have hneg := negotiate_of_rupee message p hmark
  have hhead := priceBranch_reply_head message p
  refine ⟨hneg, fun q hq => ?_, fun q hq => ?_, fun message' hmark' hoff => ?_⟩
  · rw [hneg] at hq
    rw [hq, greetingReply_head] at hhead
    revert hhead
    decide
  · rw [hneg] at hq
    rw [hq, genericReply_head] at hhead
    revert hhead
    decide
  · rw [hneg, negotiate_of_rupee message' p hmark']
    exact priceBranch_congr _ _ p hoff

/-- Witness of C8: `hi, ₹36` is classified exactly like `₹36`. -/
theorem currency_rule_precedence_witness :
    negotiate "hi, ₹36" products[1] = negotiate "₹36" products[1] :=
  (currency_rule_precedence "₹36" products[1] (by decide)).2.2.2 "hi, ₹36"
    (by decide) (by decide)

/-- C9 (determinism): for a Vendor message in a room with a resolved product,
the outcome observed from the emissions (reply text, whether a deal event
follows, the price it carries) is `negotiate` of the message text and the
product, whatever the state of the connection and the mobile number of the
sender; two payloads with the same room and text therefore give identical
outcomes, and handling a message leaves the connection state unchanged. -/
theorem outcome_deterministic (socket socket' : Socket) (data data' : SendData) (p : Product)
    (hp : products.find? (fun q => q.id == data.chatRoom) = some p)
    (hv : data.user = "Vendor") (hv' : data'.user = "Vendor")
    (hroom : data'.chatRoom = data.chatRoom) (hmsg : data'.message = data.message) :
    observedOutcome (send_message socket data).2 = some (negotiate data.message p) ∧
      observedOutcome (send_message socket' data').2 =
        observedOutcome (send_message socket data).2 ∧
      (send_message socket data).1 = socket := by
  have hp' : products.find? (fun q => q.id == data'.chatRoom) = some p := by rw [hroom]; exact hp
  rw [send_message_vendor socket data p hp hv, send_message_vendor socket' data' p hp' hv']
  refine ⟨observedOutcome_reply data p _ _, ?_, rfl⟩
  show observedOutcome (_ :: _) = observedOutcome (_ :: _)
  rw [observedOutcome_reply data p, observedOutcome_reply data' p, hmsg]

/-- Witness of C9: the same accepting offer on the catalog product `p2`, sent
from two connections in different states with different mobile numbers. -/
theorem outcome_deterministic_witness :
    observedOutcome (send_message ⟨[], none, none⟩ ⟨"p2", "Vendor", "₹36/kg", "9000000001"⟩).2 =
        some (negotiate "₹36/kg" products[1]) ∧
      observedOutcome (send_message ⟨["p2"], some "Vendor", some "9000000002"⟩
          ⟨"p2", "Vendor", "₹36/kg", "9000000002"⟩).2 =
        observedOutcome (send_message ⟨[], none, none⟩ ⟨"p2", "Vendor", "₹36/kg", "9000000001"⟩).2 ∧
      (send_message ⟨[], none, none⟩ ⟨"p2", "Vendor", "₹36/kg", "9000000001"⟩).1 =
        ⟨[], none, none⟩ :=
  outcome_deterministic ⟨[], none, none⟩ ⟨["p2"], some "Vendor", some "9000000002"⟩
    ⟨"p2", "Vendor", "₹36/kg", "9000000001"⟩ ⟨"p2", "Vendor", "₹36/kg", "9000000002"⟩
    products[1] (by decide) (by decide) (by decide) (by decide) (by decide)

/-- C10 (deal emission): for a Vendor message in a room with a resolved
product, a `deal_finalized` event is emitted if and only if the outcome is an
accepted deal; the emissions are then exactly the echo, the Supplier reply and
one `deal_finalized` event to the room, in this order, carrying the accepted
amount (the number `parseInt` returned), the supplier contact `9876543210`,
the mobile number of the triggering message and the distance `5 km`. -/
theorem deal_emission (socket : Socket) (data : SendData) (p : Product)
    (hp : products.find? (fun q => q.id == data.chatRoom) = some p)
    (hv : data.user = "Vendor") :
    ((∃ e ∈ (send_message socket data).2, e.isDeal = true) ↔
        (negotiate data.message p).isDealFinal = true) ∧
      ((negotiate data.message p).isDealFinal = true →
        ∃ a : JSNumber, offeredPrice data.message = some a ∧
          (negotiate data.message p).finalPrice = a ∧
          (send_message socket data).2 =
            [⟨0, Target.room data.chatRoom, Event.chat_message data.user data.message none⟩,
              ⟨1500, Target.room data.chatRoom,
                Event.chat_message "Supplier" (negotiate data.message p).reply none⟩,
              ⟨1500, Target.room data.chatRoom,
                Event.deal_finalized a "9876543210" data.mobile "5 km"⟩]) := by
  rw [send_message_vendor socket data p hp hv]
  constructor
  · cases h : (negotiate data.message p).isDealFinal with
    | false =>
      rw [replyEmissions_not_final data p h]
      simp [Emission.isDeal]
    | true =>
      rw [replyEmissions_final data p h]
      simp [Emission.isDeal]
  · intro h
    refine ⟨(negotiate data.message p).finalPrice, negotiate_final data.message p h, rfl, ?_⟩
    rw [replyEmissions_final data p h]

/-- Witness of C10 on the catalog product `p2` (MRP 40): the offer `₹36/kg`,
sent on a connection that joined with another mobile number, reveals the
mobile number of the message; and the event of the 16-digit offer
`₹9007199254740993` carries the double 9007199254740992. -/
theorem deal_emission_witness :
    (send_message ⟨["p2"], some "Vendor", some "9000000001"⟩
        ⟨"p2", "Vendor", "₹36/kg", "9000000002"⟩).2 =
      [⟨0, Target.room "p2", Event.chat_message "Vendor" "₹36/kg" none⟩,
        ⟨1500, Target.room "p2", Event.chat_message "Supplier"
          "That's a good offer of ₹36/kg! I accept. Let's finalize this." none⟩,
        ⟨1500, Target.room "p2", Event.deal_finalized 36 "9876543210" "9000000002" "5 km"⟩] ∧
      (send_message ⟨[], none, none⟩
          ⟨"p2", "Vendor", "₹9007199254740993", "9000000001"⟩).2 =
        [⟨0, Target.room "p2", Event.chat_message "Vendor" "₹9007199254740993" none⟩,
          ⟨1500, Target.room "p2", Event.chat_message "Supplier"
            "That's a good offer of ₹9007199254740992/kg! I accept. Let's finalize this."
            none⟩,
          ⟨1500, Target.room "p2",
            Event.deal_finalized 9007199254740992 "9876543210" "9000000001" "5 km"⟩] ∧
      ((∃ e ∈ (send_message ⟨["p2"], some "Vendor", some "9000000001"⟩
            ⟨"p2", "Vendor", "₹36/kg", "9000000002"⟩).2,
          e.isDeal = true) ↔ (negotiate "₹36/kg" products[1]).isDealFinal = true) :=
  ⟨by decide, by decide,
    (deal_emission ⟨["p2"], some "Vendor", some "9000000001"⟩
      ⟨"p2", "Vendor", "₹36/kg", "9000000002"⟩ products[1] (by decide) (by decide)).1⟩

/-! ## The chat session -/

/-- C11 (relay and unresolved-product abort): for every `send_message`
payload the first emission is the room broadcast of a `chat_message` with the
user and message of the payload; and if the room id is the id of no catalog
product, that echo is the only emission, whatever the role and the text. -/
theorem relay_and_abort (socket : Socket) (data : SendData) :
    (send_message socket data).2.head? =
        some ⟨0, Target.room data.chatRoom,
          Event.chat_message data.user data.message none⟩ ∧
      ((∀ p ∈ products, p.id ≠ data.chatRoom) →
        (send_message socket data).2 =
          [⟨0, Target.room data.chatRoom,
            Event.chat_message data.user data.message none⟩]) := by
  constructor
  · unfold send_message
    split
    · rfl
    · split_ifs <;> rfl
  · intro h
    rw [send_message_unresolved socket data (find_none_of_no_id _ h)]

/-- Witness of C11: an accepting Vendor offer sent to the unknown room `p99`
is echoed and nothing else happens. -/
theorem relay_and_abort_witness :
    (send_message ⟨[], none, none⟩ ⟨"p99", "Vendor", "₹36/kg", "9000000001"⟩).2 =
      [⟨0, Target.room "p99", Event.chat_message "Vendor" "₹36/kg" none⟩] :=
  (relay_and_abort ⟨[], none, none⟩ ⟨"p99", "Vendor", "₹36/kg", "9000000001"⟩).2 (by decide)

/-- C12 (reply scheduling): in a room with a resolved product a deferred
emission exists if and only if the user of the payload is exactly `Vendor`;
the emissions are then the echo (delay 0) followed by one `chat_message` of
user `Supplier` under the 1500 ms timer and by `deal_finalized` events only,
and for every other user the echo is the only emission. -/
theorem reply_scheduling (socket : Socket) (data : SendData) (p : Product)
    (hp : products.find? (fun q => q.id == data.chatRoom) = some p) :
    ((∃ e ∈ (send_message socket data).2, e.delay ≠ 0) ↔ data.user = "Vendor") ∧
      (data.user = "Vendor" →
        ∃ deals : List Emission,
          (send_message socket data).2 =
            ⟨0, Target.room data.chatRoom, Event.chat_message data.user data.message none⟩
              :: ⟨1500, Target.room data.chatRoom,
                  Event.chat_message "Supplier" (negotiate data.message p).reply none⟩
              :: deals ∧
          ∀ e ∈ deals, e.isDeal = true) ∧
      (data.user ≠ "Vendor" →
        (send_message socket data).2 =
          [⟨0, Target.room data.chatRoom,
            Event.chat_message data.user data.message none⟩]) := by
  have hvendor : data.user = "Vendor" →
      ∃ deals : List Emission,
        (send_message socket data).2 =
          ⟨0, Target.room data.chatRoom, Event.chat_message data.user data.message none⟩
            :: ⟨1500, Target.room data.chatRoom,
                Event.chat_message "Supplier" (negotiate data.message p).reply none⟩
            :: deals ∧
        ∀ e ∈ deals, e.isDeal = true := by
    intro hv
    rw [send_message_vendor socket data p hp hv]
    cases h : (negotiate data.message p).isDealFinal with
    | false =>
      exact ⟨[], by rw [replyEmissions_not_final data p h], by simp⟩
    | true =>
      refine ⟨_, by rw [replyEmissions_final data p h], ?_⟩
      simp [Emission.isDeal]
  refine ⟨?_, hvendor, fun hv => ?_⟩
  · constructor
    · rintro ⟨e, he, hd⟩
      by_contra hv
      rw [send_message_other socket data p hp hv] at he
      simp only [List.mem_singleton] at he
      subst he
      exact hd rfl
    · intro hv
      obtain ⟨deals, hlist, -⟩ := hvendor hv
      rw [hlist]
      exact ⟨_, List.mem_cons_of_mem _ (List.mem_cons_self _ _), by simp⟩
  · rw [send_message_other socket data p hp hv]

/-- Witness of C12 on the catalog product `p2`: a message of user `Supplier`
is echoed only, also when it carries an accepting price. -/
theorem reply_scheduling_witness :
    (send_message ⟨[], none, none⟩ ⟨"p2", "Supplier", "₹36/kg", "9000000001"⟩).2 =
      [⟨0, Target.room "p2", Event.chat_message "Supplier" "₹36/kg" none⟩] :=
  (reply_scheduling ⟨[], none, none⟩ ⟨"p2", "Supplier", "₹36/kg", "9000000001"⟩ products[1]
    (by decide)).2.2 (by decide)

/-- C13 (join always welcomes): every `join_chat` emits exactly one event, to
the joining connection only: a `chat_message` of user `System` with
`isSystem` true. For a room that resolves to a catalog product its text names
the product and its MRP; for a room id of no catalog product it is the generic
text without product details. -/
theorem join_always_welcomes (socket : Socket) (data : JoinData) :
    ((join_chat socket data).2.length = 1 ∧
        ∀ e ∈ (join_chat socket data).2, e.target = Target.socket ∧
          ∃ text, e.event = Event.chat_message "System" text (some true)) ∧
      (∀ p : Product, products.find? (fun q => q.id == data.chatRoom) = some p →
        (join_chat socket data).2 =
          [⟨0, Target.socket, Event.chat_message "System"
            ("Welcome to the chat for " ++ p.name ++ "! MRP: ₹" ++ Nat.repr p.mrp ++ "/"
              ++ p.unit ++ ". You can now negotiate the price.") (some true)⟩]) ∧
      ((∀ p ∈ products, p.id ≠ data.chatRoom) →
        (join_chat socket data).2 =
          [⟨0, Target.socket, Event.chat_message "System"
            "Welcome to the chat for this product! . You can now negotiate the price."
            (some true)⟩]) := by
  refine ⟨⟨rfl, fun e he => ?_⟩, fun p hp => ?_, fun h => ?_⟩
  · simp only [join_chat, List.mem_singleton] at he
    subst he
    exact ⟨rfl, _, rfl⟩
  · simp only [join_chat, hp, welcomeText_some]
  · simp only [join_chat, find_none_of_no_id _ h]
    rfl

/-- Witness of C13: joining the catalog room `p2` and the unknown room `zz`. -/
theorem join_always_welcomes_witness :
    (join_chat ⟨[], none, none⟩ ⟨"p2", "Vendor", "9000000001"⟩).2 =
        [⟨0, Target.socket, Event.chat_message "System"
          ("Welcome to the chat for " ++ products[1].name ++ "! MRP: ₹"
            ++ Nat.repr products[1].mrp ++ "/" ++ products[1].unit
            ++ ". You can now negotiate the price.") (some true)⟩] ∧
      (join_chat ⟨[], none, none⟩ ⟨"zz", "Vendor", "9000000001"⟩).2 =
        [⟨0, Target.socket, Event.chat_message "System"
          "Welcome to the chat for this product! . You can now negotiate the price."
          (some true)⟩] :=
  ⟨(join_always_welcomes ⟨[], none, none⟩ ⟨"p2", "Vendor", "9000000001"⟩).2.1 products[1]
      (by decide),
    (join_always_welcomes ⟨[], none, none⟩ ⟨"zz", "Vendor", "9000000001"⟩).2.2 (by decide)⟩

/-- C14 (end-to-end scenario on the catalog product `p2`, MRP 40): the Vendor
message `₹36/kg` gives the echo, the accept reply and a `deal_finalized` event
with final price 36; `₹25/kg` gives the echo and the reject-as-low reply and
no deal event; `hello` gives the echo and the greeting reply naming
`Green Farms` and the price 40, and no deal event. -/
theorem end_to_end_scenario :
    (send_message ⟨[], none, none⟩ ⟨"p2", "Vendor", "₹36/kg", "9000000001"⟩).2 =
        [⟨0, Target.room "p2", Event.chat_message "Vendor" "₹36/kg" none⟩,
          ⟨1500, Target.room "p2", Event.chat_message "Supplier"
            "That's a good offer of ₹36/kg! I accept. Let's finalize this." none⟩,
          ⟨1500, Target.room "p2",
            Event.deal_finalized 36 "9876543210" "9000000001" "5 km"⟩] ∧
      (send_message ⟨[], none, none⟩ ⟨"p2", "Vendor", "₹25/kg", "9000000001"⟩).2 =
        [⟨0, Target.room "p2", Event.chat_message "Vendor" "₹25/kg" none⟩,
          ⟨1500, Target.room "p2", Event.chat_message "Supplier"
            "Your offer of ₹25/kg is a bit low. The MRP is ₹40. Can you increase it?" none⟩] ∧
      (send_message ⟨[], none, none⟩ ⟨"p2", "Vendor", "hello", "9000000001"⟩).2 =
        [⟨0, Target.room "p2", Event.chat_message "Vendor" "hello" none⟩,
          ⟨1500, Target.room "p2", Event.chat_message "Supplier"
            "Hello! This is Green Farms. The MRP for Premium Tomatoes is ₹40/kg. What is your offer?"
            none⟩] := by
  refine ⟨?_, ?_, ?_⟩ <;> decide

/-- C15 (no guard against double finalization): the emissions of
`send_message` do not depend on the state of the connection, so after any
finite sequence of earlier client events an accepting Vendor offer in a room
with a resolved product again adds the echo, the Supplier reply and a
`deal_finalized` event; sending the same accepting offer twice yields two
`deal_finalized` events. -/
theorem no_double_finalization_guard (socket : Socket) (history : List ClientEvent)
    (data : SendData) (p : Product)
    (hp : products.find? (fun q => q.id == data.chatRoom) = some p)
    (hv : data.user = "Vendor") (hacc : (negotiate data.message p).isDealFinal = true) :
    (handleAll socket (history ++ [ClientEvent.send data])).2 =
        (handleAll socket history).2 ++
          [⟨0, Target.room data.chatRoom, Event.chat_message data.user data.message none⟩,
            ⟨1500, Target.room data.chatRoom,
              Event.chat_message "Supplier" (negotiate data.message p).reply none⟩,
            ⟨1500, Target.room data.chatRoom,
              Event.deal_finalized (negotiate data.message p).finalPrice "9876543210"
                data.mobile "5 km"⟩] ∧
      ((handleAll socket [ClientEvent.send data, ClientEvent.send data]).2.filter
        Emission.isDeal).length = 2 := by
  have hsend : ∀ s : Socket, (send_message s data).2 =
      [⟨0, Target.room data.chatRoom, Event.chat_message data.user data.message none⟩,
        ⟨1500, Target.room data.chatRoom,
          Event.chat_message "Supplier" (negotiate data.message p).reply none⟩,
        ⟨1500, Target.room data.chatRoom,
          Event.deal_finalized (negotiate data.message p).finalPrice "9876543210"
            data.mobile "5 km"⟩] := by
    intro s
    rw [send_message_vendor s data p hp hv, replyEmissions_final data p hacc]
  constructor
  · rw [handleAll_append]
    simp only [handleAll, handle, List.append_nil, hsend]
  · simp only [handleAll, handle, List.append_nil, hsend]
    simp [Emission.isDeal]

/-- Witness of C15: the accepting offer `₹36/kg` on the catalog product `p2`,
sent twice on one connection after a join, finalizes twice. -/
theorem no_double_finalization_guard_witness :
    ((handleAll ⟨[], none, none⟩
        [ClientEvent.send ⟨"p2", "Vendor", "₹36/kg", "9000000001"⟩,
          ClientEvent.send ⟨"p2", "Vendor", "₹36/kg", "9000000001"⟩]).2.filter
      Emission.isDeal).length = 2 :=
  (no_double_finalization_guard ⟨[], none, none⟩
    [ClientEvent.join ⟨"p2", "Vendor", "9000000001"⟩]
    ⟨"p2", "Vendor", "₹36/kg", "9000000001"⟩ products[1] (by decide) (by decide)
    (by decide)).2

/-! ## The REST endpoints and the deal invariant -/

/-- C16 (product search): for every query string `q` the result holds exactly
the catalog products whose lower-cased name or supplier contains the
lower-cased `q`, in catalog order and without duplicates; the empty and the
absent query return the whole catalog of 14 products. -/
theorem product_search (q : String) :
    (∀ p : Product, p ∈ filteredProducts (some q) ↔
        p ∈ products ∧
          ((toLowerCase q).data <:+: (toLowerCase p.name).data ∨
            (toLowerCase q).data <:+: (toLowerCase p.supplier).data)) ∧
      (filteredProducts (some q)).Sublist products ∧
      (filteredProducts (some q)).Nodup ∧
      filteredProducts (some "") = products ∧ filteredProducts none = products ∧
      products.length = 14 := by
  refine ⟨fun p => ?_, ?_, ?_, filteredProducts_empty, filteredProducts_none, rfl⟩
  · rw [filteredProducts_query, List.mem_filter, Bool.or_eq_true, includes_iff, includes_iff]
  · rw [filteredProducts_query]
    exact List.filter_sublist _
  · rw [filteredProducts_query]
    exact products_nodup.filter _

/-- C17 fails on the code at the product id `constructor`: it is not a key of
`productSuppliersMap`, yet the property read finds the value inherited from
`Object.prototype`, which is truthy, so the handler does not answer 404. -/
theorem product_suppliers_inherited_key :
    "constructor" ∉ productSuppliersMap.map Prod.fst ∧
      product_suppliers "constructor" = Response.ok (PropertyValue.inherited "constructor") ∧
      product_suppliers "constructor" ≠
        Response.notFound "No suppliers found for this product." := by
  refine ⟨by decide, by decide, by decide⟩

/-- C18 (zero offers are malformed): when the first digit run after `₹`
consists only of zeros, the offered price is 0, which is falsy, and the reply
is the re-prompt text with no deal, for every product. -/
theorem zero_offer_reprompt (message : String) (p : Product) (ds : List Char)
    (h : FirstRupeeRun message.data ds) (hz : ∀ c ∈ ds, c = '0') :
    offeredPrice message = some 0 ∧
      negotiate message p =
        { reply := "Please specify your price offer clearly (e.g., '₹XX/kg').",
          isDealFinal := false, finalPrice := 0 } := by
  have ho : offeredPrice message = some 0 := by
    rw [offeredPrice_of_run message ds h, digitsValue_zeros ds hz]
    rfl
  refine ⟨ho, ?_⟩
  rw [negotiate_of_rupee message p (offeredPrice_some_mem message 0 ho),
    priceBranch_reprompt message p (Or.inr ho)]
  rfl

/-- Witness of C18: `₹000/kg` on the catalog product `p2`. -/
theorem zero_offer_reprompt_witness :
    offeredPrice "₹000/kg" = some 0 ∧
      negotiate "₹000/kg" products[1] =
        { reply := "Please specify your price offer clearly (e.g., '₹XX/kg').",
          isDealFinal := false, finalPrice := 0 } :=
  zero_offer_reprompt "₹000/kg" products[1] ['0', '0', '0']
    ((matchRupeeDigits_some_iff _ _).mp (by decide)) (by decide)

/-- C19 as stated fails above `2^53`: on the catalog product `p2` the Vendor
message `₹9007199254740993` finalizes a deal whose final price is the double
9007199254740992, not the value 9007199254740993 of the digits. -/
theorem deal_soundness_rounding_counterexample :
    (⟨1500, Target.room "p2",
        Event.deal_finalized 9007199254740992 "9876543210" "9000000001" "5 km"⟩ : Emission) ∈
      (send_message ⟨[], none, none⟩ ⟨"p2", "Vendor", "₹9007199254740993", "9000000001"⟩).2 ∧
    FirstRupeeRun "₹9007199254740993".data "9007199254740993".data ∧
    digitsValue "9007199254740993".data = 9007199254740993 ∧
    JSNumber.finite 9007199254740992 ≠ JSNumber.finite (digitsValue "9007199254740993".data) :=
  ⟨by decide, (matchRupeeDigits_some_iff _ _).mp (by decide), by decide, by decide⟩

/-- C19 (deal soundness, amended to the number that `parseInt` returns): if
`send_message` emits a `deal_finalized` event, then the user is `Vendor`, the
room resolves to a product, the message has a first digit run after `₹` whose
value `a` is positive, the final price of the event is the Number value of
`a`, which is `a` itself below `2^53`, and the final price is at least 90% of
the MRP of the product. Acceptance is monotone in the offered amount: if an
amount is accepted for a product, so is every amount above it. -/
theorem deal_soundness (socket : Socket) (data : SendData) (e : Emission)
    (price : JSNumber) (supplierContact vendorContact distance : String)
    (he : e ∈ (send_message socket data).2)
    (hev : e.event = Event.deal_finalized price supplierContact vendorContact distance) :
    (data.user = "Vendor" ∧
        ∃ p : Product, products.find? (fun q => q.id == data.chatRoom) = some p ∧
          ∃ ds : List Char, FirstRupeeRun data.message.data ds ∧ 0 < digitsValue ds ∧
            price = toNumber (digitsValue ds) ∧
            (digitsValue ds < 2 ^ 53 → price = JSNumber.finite (digitsValue ds)) ∧
            price.atLeast ((0.90 : ℚ) * (p.mrp : ℚ))) ∧
      ∀ (p : Product) (message message' : String) (a a' : JSNumber),
        offeredPrice message = some a → offeredPrice message' = some a' → a.le a' →
        (negotiate message p).isDealFinal = true →
        (negotiate message' p).isDealFinal = true := by
  constructor
  · cases hp : products.find? (fun q => q.id == data.chatRoom) with
    | none =>
      rw [send_message_unresolved socket data hp] at he
      simp only [List.mem_singleton] at he
      subst he
      simp at hev
    | some p =>
      by_cases hv : data.user = "Vendor"
      · rw [send_message_vendor socket data p hp hv] at he
        cases hfin : (negotiate data.message p).isDealFinal with
        | false =>
          rw [replyEmissions_not_final data p hfin] at he
          simp only [List.mem_cons, List.mem_singleton, List.not_mem_nil, or_false] at he
          rcases he with rfl | rfl <;> simp at hev
        | true =>
          rw [replyEmissions_final data p hfin] at he
          simp only [List.mem_cons, List.mem_singleton, List.not_mem_nil, or_false] at he
          obtain ⟨a, hoff, hprice, h0, h9⟩ := negotiate_accept_inv data.message p hfin
          obtain ⟨ds, hrun, hval⟩ := run_of_offeredPrice data.message a hoff
          rcases he with rfl | rfl | rfl
          · simp at hev
          · simp at hev
          · simp only [Event.deal_finalized.injEq] at hev
            obtain ⟨hpr, -, -, -⟩ := hev
            rw [hprice] at hpr
            subst hpr
            refine ⟨hv, p, rfl, ds, hrun, ?_, hval.symm, fun hsmall => ?_, ?_⟩
            · apply Nat.pos_of_ne_zero
              intro hzero
              rw [hzero] at hval
              rw [← hval] at h0
              exact absurd h0 (by decide)
            · rw [← hval, toNumber_small _ hsmall]
            · cases a with
              | finite n =>
                simp only [JSNumber.geNineTenths, decide_eq_true_eq] at h9
                exact (ninety_percent_iff n p.mrp).mpr h9
              | infinity => trivial
      · rw [send_message_other socket data p hp hv] at he
        simp only [List.mem_singleton] at he
        subst he
        simp at hev
  · intro p message message' a a' ha ha' hle hacc
    obtain ⟨b, hb, -, h0, h9⟩ := negotiate_accept_inv message p hacc
    have hab : b = a := Option.some.inj (hb.symm.trans ha)
    subst hab
    rw [negotiate_of_rupee message' p (offeredPrice_some_mem message' a' ha')]
    cases a' with
    | infinity => rw [priceBranch_accept_infinity message' p ha']
    | finite n' =>
      cases b with
      | infinity => exact absurd hle (by simp [JSNumber.le])
      | finite n =>
        simp only [JSNumber.le] at hle
        simp only [JSNumber.truthy, bne_iff_ne, ne_eq] at h0
        simp only [JSNumber.geNineTenths, decide_eq_true_eq] at h9
        rw [priceBranch_accept message' p n' ha' (by omega) (by omega)]

/-- Witness of C19: the deal event of the offer `₹36/kg` on the catalog
product `p2` (MRP 40). -/
theorem deal_soundness_witness :
    ∃ p : Product, products.find? (fun q => q.id == "p2") = some p ∧
      ∃ ds : List Char, FirstRupeeRun "₹36/kg".data ds ∧ 0 < digitsValue ds ∧
        (36 : JSNumber) = toNumber (digitsValue ds) ∧
        (digitsValue ds < 2 ^ 53 → (36 : JSNumber) = JSNumber.finite (digitsValue ds)) ∧
        JSNumber.atLeast 36 ((0.90 : ℚ) * (p.mrp : ℚ)) :=
  (deal_soundness ⟨[], none, none⟩ ⟨"p2", "Vendor", "₹36/kg", "9000000001"⟩
    ⟨1500, Target.room "p2", Event.deal_finalized 36 "9876543210" "9000000001" "5 km"⟩
    36 "9876543210" "9000000001" "5 km" (by decide) rfl).1.2

end FoodHub
